import Mathlib

/-!
Verification development for the pyOCCT binding generator
(`pybinder/core.py`).  The Python source is shallowly embedded: pure
string/list manipulations become Lean functions over the same data, the
mutable rule tables of class `Generator` become an explicit `Config`
record threaded through the functions, and data obtained from the
external libclang front end (cursor kinds, spellings, access levels,
type classifications) becomes fields of explicit record types that the
embedded functions consume exactly as the Python property accessors do.
-/

/-! ## Python string primitives

Helpers mirroring the exact semantics of the Python `str` methods used
by `core.py` (`split`, `split(sep, 1)`, `strip`, `strip("* ")`,
`replace`, `replace(old, new, 1)`, substring membership, `int()`). -/

/-- Python `s.startswith(p)`. -/
def pyStartsWith (s p : String) : Bool :=
  p.data.isPrefixOf s.data

/-- Python `s.endswith(p)`. -/
def pyEndsWith (s p : String) : Bool :=
  p.data.isSuffixOf s.data

/-- Python `s.strip()` (ASCII whitespace). -/
def pyTrim (s : String) : String :=
  let l := (s.data.dropWhile Char.isWhitespace).reverse
  String.mk ((l.dropWhile Char.isWhitespace).reverse)

/-- Python truthiness of a string (`not s`). -/
def pyIsEmpty (s : String) : Bool :=
  s.data.isEmpty

/-- Fuel-driven splitter on a nonempty separator: the fuel (one unit
per consumed character) keeps the recursion structural, and the input
length always suffices since every step consumes at least one
character. -/
def splitOnFuel (sep : List Char) : Nat → List Char → List Char → List (List Char)
  | _, [], acc => [acc.reverse]
  | 0, l, acc => [acc.reverse ++ l]
  | Nat.succ fuel, c :: cs, acc =>
    if sep.isPrefixOf (c :: cs) then
      acc.reverse :: splitOnFuel sep fuel (cs.drop (sep.length - 1)) []
    else splitOnFuel sep fuel cs (c :: acc)

/-- Python `s.split(sep)` for a nonempty separator (the behaviour of
`str.split` with an explicit separator: non-overlapping occurrences,
left to right, keeping empty parts). -/
def pySplitOn (s sep : String) : List String :=
  if sep.data.isEmpty then [s]
  else (splitOnFuel sep.data s.data.length s.data []).map String.mk

/-- Python `s.replace(old, new)` (all occurrences), via the identity
`s.replace(old, new) == new.join(s.split(old))`. -/
def pyReplace (s old new : String) : String :=
  if old.data.isEmpty then s
  else String.intercalate new (pySplitOn s old)

/-- Python `sep in s` (substring containment, `sep` nonempty in all uses). -/
def containsStr (s pat : String) : Bool :=
  (pySplitOn s pat).length != 1

/-- Python `s.split(sep, 1)`: split on the first occurrence only. -/
def splitOnFirst (s sep : String) : List String :=
  match pySplitOn s sep with
  | [] => []
  | [x] => [x]
  | x :: rest => [x, String.intercalate sep rest]

/-- Python `s.replace(old, new, 1)`: replace only the first occurrence. -/
def replaceFirst (s old new : String) : String :=
  match pySplitOn s old with
  | [] => s
  | [_] => s
  | x :: rest => x ++ new ++ String.intercalate old rest

/-- Python `s.strip(chars)`: remove leading and trailing characters drawn
from `chars`. -/
def stripChars (s : String) (chars : List Char) : String :=
  let l := (s.data.dropWhile (fun c => chars.contains c)).reverse
  String.mk ((l.dropWhile (fun c => chars.contains c)).reverse)

/-- Decimal digit accumulation for `int()`. -/
def digitsToNat (l : List Char) : Nat :=
  l.foldl (fun a c => a * 10 + (c.toNat - 48)) 0

/-- Python `int(s)` (sign and decimal digits; underscores unsupported). -/
def pyToInt? (s : String) : Option Int :=
  let t := pyTrim s
  let neg := pyStartsWith t "-"
  let core := if pyStartsWith t "-" || pyStartsWith t "+" then t.drop 1 else t
  if core.length > 0 && core.data.all Char.isDigit then
    some (if neg then -(digitsToNat core.data : Int) else (digitsToNat core.data : Int))
  else none

/-- Index (in characters) of the first occurrence of `pat` in `s`,
mirroring `re.search(...).span()[0]` for a literal pattern. -/
def firstIdx (s pat : String) : Option Nat :=
  let p := pat.toList
  let rec go : List Char → Nat → Option Nat
    | [], n => if p.isEmpty then some n else none
    | c :: cs, n =>
      if p.isPrefixOf (c :: cs) then some n else go cs (n + 1)
  go s.toList 0

/-! ## fnmatch

Model of Python `fnmatch.fnmatch` on POSIX (no case folding): `*`
matches any sequence, `?` any single character, `[seq]` a character
class with ranges and `[!seq]` negation; a `]` directly after `[` or
`[!` is literal, and an unterminated `[` matches a literal `[`.  The
matcher is written with explicit fuel; `patternLen + inputLen + 1` steps
always suffice because every recursive call shrinks that sum. -/

/-- Split a character-class body at the first `]`. -/
def findClose : List Char → Option (List Char × List Char)
  | [] => none
  | ']' :: rest => some ([], rest)
  | c :: rest => (findClose rest).map (fun p => (c :: p.1, p.2))

/-- Parse a character class after the opening `[`: returns
(negated, body, rest-of-pattern). -/
def parseClass (ps : List Char) : Option (Bool × List Char × List Char) :=
  match ps with
  | '!' :: r2 =>
    match r2 with
    | ']' :: r3 => (findClose r3).map (fun p => (true, ']' :: p.1, p.2))
    | _ => (findClose r2).map (fun p => (true, p.1, p.2))
  | ']' :: r2 => (findClose r2).map (fun p => (false, ']' :: p.1, p.2))
  | _ => (findClose ps).map (fun p => (false, p.1, p.2))

/-- Does character `c` match a class body (with `a-z` ranges)? -/
def matchClass (c : Char) : List Char → Bool
  | a :: '-' :: b :: rest =>
    (a.toNat ≤ c.toNat && c.toNat ≤ b.toNat) || matchClass c rest
  | a :: rest => (c == a) || matchClass c rest
  | [] => false

/-- Fuel-driven glob matcher core. -/
def globMatchFuel : Nat → List Char → List Char → Bool
  | 0, _, _ => false
  | Nat.succ fuel, ps, s =>
    match ps, s with
    | [], s => s.isEmpty
    | '*' :: ps, s =>
      globMatchFuel fuel ps s ||
        (match s with
         | [] => false
         | _ :: cs => globMatchFuel fuel ('*' :: ps) cs)
    | '?' :: ps, s =>
      match s with
      | [] => false
      | _ :: cs => globMatchFuel fuel ps cs
    | '[' :: ps, s =>
      match parseClass ps with
      | some (neg, body, rest) =>
        match s with
        | [] => false
        | c :: cs => (matchClass c body != neg) && globMatchFuel fuel rest cs
      | none =>
        match s with
        | [] => false
        | c :: cs => (c == '[') && globMatchFuel fuel ps cs
    | p :: ps, s =>
      match s with
      | [] => false
      | c :: cs => (c == p) && globMatchFuel fuel ps cs

/-- Python `fnmatch.fnmatch(name, pat)` on POSIX. -/
def fnmatch (name pat : String) : Bool :=
  globMatchFuel (pat.length + name.length + 1) pat.toList name.toList

/-! ## Association-list helpers (Python `dict`) -/

/-- Dictionary lookup. -/
def alookup {α : Type} (m : List (String × α)) (k : String) : Option α :=
  (m.find? (fun p => p.1 == k)).map (fun p => p.2)

/-- Dictionary assignment `m[k] = v` (overwrite in place, else append). -/
def aset {α : Type} (m : List (String × α)) (k : String) (v : α) :
    List (String × α) :=
  if (m.find? (fun p => p.1 == k)).isSome then
    m.map (fun p => if p.1 == k then (k, v) else p)
  else m ++ [(k, v)]

/-- The `if k in m: m[k].append(v) else: m[k] = [v]` idiom. -/
def aappend {α : Type} (m : List (String × List α)) (k : String) (v : α) :
    List (String × List α) :=
  match alookup m k with
  | some l => aset m k (l ++ [v])
  | none => m ++ [(k, [v])]

/-! ## Rule Configuration (`Generator` class attributes + `process_config`)

The process-wide rule tables of class `Generator` become one explicit
record.  Python `set`s become lists consulted only through `contains`
(so duplicate appends are observationally harmless); `dict`s become
association lists. -/

structure Config where
  available_mods : List String := []
  available_incs : List String := []
  available_templates : List String := []
  excluded_classes : List String := []
  excluded_functions : List String := []
  excluded_rtypes : List String := []
  excluded_enums : List String := []
  excluded_fnames : List String := []
  excluded_mods : List String := []
  excluded_typedefs : List String := []
  excluded_fields : List String := []
  excluded_headers : List String := []
  excluded_namespaces : List String := ["std"]
  nodelete : List String := []
  nested_classes : List String := []
  downcast_classes : List String := []
  skipped : List String := []
  immutable : List String := []
  split : List String := []
  opaque_types : List String := []
  common_includes : List String := []
  excluded_bases : List (String × List String) := []
  import_guards : List (String × List String) := []
  plus_headers : List (String × List String) := []
  minus_headers : List (String × List String) := []
  python_names : List (String × String) := []
  excluded_imports : List (String × List String) := []
  call_guards : List (String × List String) := []
  keep_alive : List (String × String) := []
  before_type : List (String × List String) := []
  after_type : List (String × List String) := []
  patches : List (String × List (List String)) := []
  return_policies : List (String × String) := []
  before_module : List (String × List String) := []
  sort_order : List (String × List (String × Int)) := []
  compiler_args : List (String × List String) := []
  include_dirs : List String := []
  -- PY_OPERATORS lives in `pybinder.common`, which is not part of the
  -- sources; modelled from the spec as an abstract fixed name table
  -- ("operators map through a fixed name table").
  py_operators : List (String × String) := []
  deriving Repr, DecidableEq

/-- The rule tables exactly as they stand before any configuration file
is processed (`Generator`'s class-attribute initialisers). -/
def initial_config : Config := {}

/-- One `key: value` split that must produce exactly two parts, as the
Python 2-tuple unpacking of `line.split(sep)` does. -/
def split2 (s sep : String) : Except String (String × String) :=
  match pySplitOn s sep with
  | [a, b] => Except.ok (a, b)
  | _ => Except.error "values to unpack"

/-- Split on the first occurrence, requiring it to exist
(`a, b = line.split(sep, 1)`). -/
def split2First (s sep : String) : Except String (String × String) :=
  match splitOnFirst s sep with
  | [a, b] => Except.ok (a, b)
  | _ => Except.error "values to unpack"

/-- Branches of `process_config` from `+cguard` to `+before_module`;
shared tail because the `+return_policy` branch lacks a `continue` and
falls through to these tests with its already-stripped line. -/
def process_line_tail (cfg : Config) (line : String) : Except String Config :=
  if pyStartsWith line "+cguard" then do
    let line := pyTrim (pyReplace line "+cguard" "")
    let (qname, md) ← split2First line "-->"
    let qname := (pyTrim qname)
    let md := (pyTrim md)
    let txt := "py::call_guard<Import" ++ md ++ ">()"
    pure { cfg with call_guards := aappend cfg.call_guards qname txt }
  else if pyStartsWith line "+keep_alive" then do
    let line := pyTrim (pyReplace line "+keep_alive" "")
    let (qname, params) ← split2First line "-->"
    pure { cfg with keep_alive := aset cfg.keep_alive (pyTrim qname) (pyTrim params) }
  else if pyStartsWith line "+nested" then
    let line := pyTrim (pyReplace line "+nested" "")
    pure { cfg with nested_classes := cfg.nested_classes ++ [line] }
  else if pyStartsWith line "+downcast" then
    let line := pyTrim (pyReplace line "+downcast" "")
    pure { cfg with downcast_classes := cfg.downcast_classes ++ [line] }
  else if pyStartsWith line "+skip" then
    let line := pyTrim (pyReplace line "+skip" "")
    pure { cfg with skipped := cfg.skipped ++ [line] }
  else if pyStartsWith line "+before_type" then do
    let line := pyTrim (replaceFirst line "+before_type" "")
    let (qname, txt) ← split2First line "-->"
    pure { cfg with before_type := aappend cfg.before_type (pyTrim qname) (pyTrim txt) }
  else if pyStartsWith line "+after_type" then do
    let line := pyTrim (replaceFirst line "+after_type" "")
    let (qname, txt) ← split2First line "-->"
    pure { cfg with after_type := aappend cfg.after_type (pyTrim qname) (pyTrim txt) }
  else if pyStartsWith line "+immutable" then
    let line := pyTrim (pyReplace line "+immutable" "")
    pure { cfg with immutable := cfg.immutable ++ [line] }
  else if pyStartsWith line "+split" then
    let line := pyTrim (pyReplace line "+split" "")
    pure { cfg with split := cfg.split ++ [line] }
  else if pyStartsWith line "+patch" then do
    let line := pyTrim (pyReplace line "+patch" "")
    let (qname, txt) ← split2First line ":"
    let pair := splitOnFirst (pyTrim txt) "-->"
    pure { cfg with patches := aappend cfg.patches (pyTrim qname) pair }
  else if pyStartsWith line "+opaque" then
    let line := pyTrim (line.drop ("+opaque".length))
    pure { cfg with opaque_types := cfg.opaque_types ++ [line] }
  else if pyStartsWith line "+before_module" then do
    let line := pyTrim (replaceFirst line "+before_module" "")
    let (md, txt) ← split2First line "-->"
    pure { cfg with before_module := aappend cfg.before_module (pyTrim md) (pyTrim txt) }
  else
    pure cfg

/-- The `+return_policy` branch: it has no `continue`, so control falls
through to the later prefix tests with the reassigned (stripped) line. -/
def process_line_rp (cfg : Config) (line : String) : Except String Config :=
  if pyStartsWith line "+return_policy" then do
    let line := pyTrim (pyReplace line "+return_policy" "")
    let (qname, policy) ← split2First line "-->"
    let cfg := { cfg with
      return_policies := aset cfg.return_policies (pyTrim qname) (pyTrim policy) }
    process_line_tail cfg line
  else
    process_line_tail cfg line

/-- One iteration of the `process_config` loop body (the Python `try`
block for a single line).  `platform` stands for `sys.platform`. -/
def process_line (platform : String) (cfg : Config) (line0 : String) :
    Except String Config :=
  let line := (pyTrim line0)
  if pyStartsWith line "#" || pyIsEmpty line then
    pure cfg
  else if pyStartsWith line "+arg" then do
    let line := pyTrim (pyReplace line "+arg" "")
    let (plat, arg) ← split2 line ":"
    pure { cfg with
      compiler_args := aappend cfg.compiler_args (pyTrim plat) (pyTrim arg) }
  else if pyStartsWith line "+include" then
    let line := pyTrim (pyReplace line "+include" "")
    pure { cfg with include_dirs := cfg.include_dirs ++ [line] }
  else if pyStartsWith line "+sort" then do
    let line := pyTrim (pyReplace line "+sort" "")
    let (md, value) ← split2 line ":"
    let md := (pyTrim md)
    let (pattern, prio) ← split2 value "="
    match pyToInt? (pyTrim prio) with
    | some p =>
      pure { cfg with sort_order := aappend cfg.sort_order md ((pyTrim pattern), p) }
    | none => Except.error "invalid literal for int"
  else if pyStartsWith line "-header*" then
    let line := pyTrim (pyReplace line "-header*" "")
    pure { cfg with excluded_headers := cfg.excluded_headers ++ [line] }
  else if pyStartsWith line "-class" then do
    let (action, line) ← split2First line " "
    if containsStr action "@" then do
      let (_, plat) ← split2 action "@"
      if plat != platform then pure cfg
      else pure { cfg with excluded_classes := cfg.excluded_classes ++ [(pyTrim line)] }
    else
      pure { cfg with excluded_classes := cfg.excluded_classes ++ [(pyTrim line)] }
  else if pyStartsWith line "-typedef" then
    let line := pyTrim (pyReplace line "-typedef" "")
    pure { cfg with excluded_typedefs := cfg.excluded_typedefs ++ [line] }
  else if pyStartsWith line "-function*" then
    let line := pyReplace (pyTrim (pyReplace line "-function*" "")) "[" "[[]"
    pure { cfg with excluded_fnames := cfg.excluded_fnames ++ [line] }
  else if pyStartsWith line "-function" then do
    let (action, line) ← split2First line " "
    let keep : Except String Bool :=
      if containsStr action "@" then do
        let (_, plat) ← split2 action "@"
        pure (plat == platform)
      else pure true
    let k ← keep
    if k then
      pure { cfg with
        excluded_functions := cfg.excluded_functions ++ [pyReplace (pyTrim line) "[" "[[]"] }
    else pure cfg
  else if pyStartsWith line "-rtype" then
    let line := pyReplace (pyTrim (pyReplace line "-rtype" "")) "[" "[[]"
    pure { cfg with excluded_rtypes := cfg.excluded_rtypes ++ [line] }
  else if pyStartsWith line "-enum" then
    let line := pyTrim (pyReplace line "-enum" "")
    pure { cfg with excluded_enums := cfg.excluded_enums ++ [line] }
  else if pyStartsWith line "-module" then
    let line := pyTrim (pyReplace line "-module" "")
    pure { cfg with excluded_mods := cfg.excluded_mods ++ [line] }
  else if pyStartsWith line "+iguard" then do
    let line := pyTrim (pyReplace line "+iguard" "")
    let (md, other) ← split2 line ":"
    pure { cfg with import_guards := aappend cfg.import_guards (pyTrim md) (pyTrim other) }
  else if pyStartsWith line "+header" then do
    let line := pyTrim (pyReplace line "+header" "")
    let (md, header) ← split2 line ":"
    pure { cfg with plus_headers := aappend cfg.plus_headers (pyTrim md) (pyTrim header) }
  else if pyStartsWith line "-header" then do
    let line := pyTrim (pyReplace line "-header" "")
    let (md, header) ← split2 line ":"
    pure { cfg with minus_headers := aappend cfg.minus_headers (pyTrim md) (pyTrim header) }
  else if pyStartsWith line "+pname" then do
    let line := pyTrim (pyReplace line "+pname" "")
    let (ty, name) ← split2First line "-->"
    pure { cfg with python_names := aset cfg.python_names (pyTrim ty) (pyTrim name) }
  else if pyStartsWith line "+nodelete" then
    let line := pyTrim (pyReplace line "+nodelete" "")
    pure { cfg with nodelete := cfg.nodelete ++ [line] }
  else if pyStartsWith line "-base" then do
    let line := pyTrim (pyReplace line "-base" "")
    let (qname, base) ← split2First line ":"
    pure { cfg with excluded_bases := aappend cfg.excluded_bases (pyTrim qname) (pyTrim base) }
  else if pyStartsWith line "-field" then
    let line := pyTrim (pyReplace line "-field" "")
    pure { cfg with excluded_fields := cfg.excluded_fields ++ [line] }
  else if pyStartsWith line "-import" then do
    let line := pyTrim (pyReplace line "-import" "")
    let (m1, m2) ← split2First line ":"
    pure { cfg with excluded_imports := aappend cfg.excluded_imports (pyTrim m1) (pyTrim m2) }
  else
    process_line_rp cfg line

/-- The `process_config` loop: applies directives line by line, stopping
at the first line whose processing raises, and reporting that line's
1-based number (`line_number + 1`).  Directives already applied stay
applied (the Python mutates the shared tables in place). -/
def process_config_go (platform : String) :
    Config → List String → Nat → Config × Option (Nat × String)
  | cfg, [], _ => (cfg, none)
  | cfg, l :: ls, n =>
    match process_line platform cfg l with
    | Except.ok c => process_config_go platform c ls (n + 1)
    | Except.error e => (cfg, some (n + 1, e))

/-- `Generator.process_config`, over the file's list of lines. -/
def process_config (platform : String) (cfg : Config) (lines : List String) :
    Config × Option (Nat × String) :=
  process_config_go platform cfg lines 0

/-! ## Output emission (`overwrite_if_changed`)

The file system is a map from paths to contents; `hash` stands for
`hashlib.sha256(...).hexdigest()`, modelled as an arbitrary function of
the content (content-equal buffers always hash equal, which is all the
code relies on). -/

/-- `overwrite_if_changed(path, source)`: returns the updated file
system and whether a write was performed. -/
def overwrite_if_changed (hash : String → String) (fs : String → Option String)
    (path : String) (data : String) : (String → Option String) × Bool :=
  match fs path with
  | some old =>
    if hash data == hash old then (fs, false)
    else ((fun q => if q == path then some data else fs q), true)
  | none => ((fun q => if q == path then some data else fs q), true)

/-! ## Module registry, imports and circular-import detection -/

/-- A `Module` (named `PyModule` here, since Lean reserves `Module`) as used by the dependency queries and the bind loop:
its name, its import list, and the (python) names of the class
templates it owns. -/
structure PyModule where
  name : String
  imports : List String := []
  templates : List String := []
  deriving Repr, DecidableEq

/-- `Generator.get_module`: `None` when the name is not an available
module, otherwise the registered module or a fresh empty one. -/
def get_module (available : List String) (mods : List PyModule) (name : String) :
    Option PyModule :=
  if available.contains name then
    some ((mods.find? (fun m => m.name == name)).getD { name := name })
  else none

/-- The worklist loop of `PyModule.is_dependent`: pop from the front of
the stack, skip visited names, succeed on the target, abort on a
non-available name, else push that module's imports on the front.  The
Python loop needs no fuel because `visited` only grows; the fuel chosen
in `PyModule.is_dependent` below is provably sufficient. -/
def dependent_dfs (available : List String) (mods : List PyModule)
    (target : String) : Nat → List String → List String → Bool
  | _, _, [] => false
  | 0, _, _ :: _ => false
  | Nat.succ fuel, visited, n :: rest =>
    if visited.contains n then dependent_dfs available mods target fuel visited rest
    else if n == target then true
    else
      match get_module available mods n with
      | none => false
      | some m =>
        dependent_dfs available mods target fuel (n :: visited) (m.imports ++ rest)

/-- `PyModule.is_dependent(self, other)`. -/
def PyModule.is_dependent (available : List String) (mods : List PyModule)
    (self other : PyModule) : Bool :=
  if self.imports.isEmpty && other.imports.isEmpty then false
  else
    dependent_dfs available mods other.name
      (self.imports.length + (mods.map (fun m => m.imports.length)).sum + 1)
      [] self.imports

/-- `PyModule.is_circular(self, other)`. -/
def PyModule.is_circular (available : List String) (mods : List PyModule)
    (self other : PyModule) : Bool :=
  PyModule.is_dependent available mods self other &&
    PyModule.is_dependent available mods other self

/-- `PyModule.is_excluded`. -/
def PyModule.is_excluded (cfg : Config) (m : PyModule) : Bool :=
  cfg.excluded_mods.contains m.name

/-- The pairs examined by `Generator.check_circular`:
`for i, mod1 in enumerate(mods): for mod2 in mods[i+1:-1]`. -/
def check_circular_pairs (mods : List PyModule) : List (PyModule × PyModule) :=
  mods.enum.flatMap (fun p =>
    ((mods.drop (p.1 + 1)).dropLast).map (fun m2 => (p.2, m2)))

/-- `Generator.check_circular`: the circular pairs it reports. -/
def Generator.check_circular (available : List String) (mods : List PyModule) :
    List (PyModule × PyModule) :=
  (check_circular_pairs mods).filter
    (fun p => PyModule.is_circular available mods p.1 p.2)

/-! ## Bind loops (`Generator.bind` / `Generator.bind_templates`)

`PyModule.bind` writes the module's primary source file (and the `_2`
continuation when the module is split); `PyModule.bind_templates` writes
one `bind_<Template>.hxx` per owned class template.  Here each is
modelled by the list of file paths it writes. -/

/-- Files written by `PyModule.bind`. -/
def PyModule.bind_files (cfg : Config) (path : String) (m : PyModule) : List String :=
  [path ++ "/" ++ m.name ++ ".cxx"] ++
    (if cfg.split.contains m.name then [path ++ "/" ++ m.name ++ "_2.cxx"] else [])

/-- Files written by `PyModule.bind_templates`. -/
def PyModule.template_files (path : String) (m : PyModule) : List String :=
  m.templates.map (fun t => path ++ "/bind_" ++ t ++ ".hxx")

/-- `Generator.bind`: skips modules whose name is excluded. -/
def Generator.bind (cfg : Config) (path : String) (mods : List PyModule) :
    List String :=
  mods.foldl
    (fun acc m =>
      if PyModule.is_excluded cfg m then acc else acc ++ PyModule.bind_files cfg path m)
    []

/-- `Generator.bind_templates`: processes every module, excluded or not. -/
def Generator.bind_templates (path : String) (mods : List PyModule) : List String :=
  mods.foldl (fun acc m => acc ++ PyModule.template_files path m) []

/-! ## AST node data

Data obtained from libclang (spellings, kinds, access, constness,
alias resolution) is modelled as explicit record fields; the embedded
generation functions below consume it exactly as the Python property
accessors do.  `alias_spelling` (the recursive spelling resolution of
`TypeBinder.alias_spelling`) and `is_alias` are carried as front-end
data since they depend only on cursor/type graph walks, not on the
binding-decision logic under verification. -/

structure TypeData where
  spelling : String := ""
  is_pointer : Bool := false
  is_lvalue : Bool := false
  is_rvalue : Bool := false
  is_array_like : Bool := false
  is_const_qualified : Bool := false
  is_alias : Bool := false
  alias_spelling : String := ""
  pointee_spelling : String := ""
  deriving Repr, DecidableEq

/-- `TypeBinder.is_pointer_like`. -/
def TypeData.is_pointer_like (t : TypeData) : Bool :=
  t.is_pointer || t.is_lvalue || t.is_rvalue

/-- `TypeBinder.is_opaque`. -/
def TypeData.is_opaque_ty (cfg : Config) (t : TypeData) : Bool :=
  if t.is_pointer then
    let sp := if pyStartsWith t.spelling "struct " then t.spelling.drop 7 else t.spelling
    cfg.opaque_types.contains (stripChars sp ['*', ' '])
  else if t.is_alias then
    let sp :=
      if pyStartsWith t.alias_spelling "struct " then t.alias_spelling.drop 7
      else t.alias_spelling
    pyEndsWith sp "*" && cfg.opaque_types.contains (stripChars sp ['*', ' '])
  else false

structure ParamData where
  spelling : String := ""
  type : TypeData := {}
  default_value : String := ""
  deriving Repr, DecidableEq

/-- `CursorBinder.is_immutable` for a parameter. -/
def ParamData.is_immutable (cfg : Config) (a : ParamData) : Bool :=
  let sp := if a.type.is_pointer_like then a.type.pointee_spelling else a.type.spelling
  cfg.immutable.contains sp

/-- Python `range(a, b)`. -/
def pyRange (a b : Nat) : List Nat := List.range' a (b - a)

/-- Result record of `function_signature`. -/
structure FuncSig where
  nargs : Nat := 0
  ndefaults : Nat := 0
  args_name : List String := []
  args_type : List String := []
  defaults : List String := []
  is_array : List Bool := []
  deriving Repr, DecidableEq

/-- One iteration of the `function_signature` loop. -/
def signature_step (cfg : Config) (s : FuncSig) (arg : ParamData) : FuncSig :=
  let ty :=
    if arg.type.is_opaque_ty cfg then
      "void* /* " ++ arg.type.spelling ++ " */"
    else if arg.type.is_alias then arg.type.alias_spelling
    else arg.type.spelling
  { nargs := s.nargs + 1
    ndefaults := if arg.default_value != "" then s.ndefaults + 1 else s.ndefaults
    args_name := s.args_name ++ [arg.spelling]
    args_type := s.args_type ++ [ty]
    defaults := s.defaults ++ [arg.default_value]
    is_array := s.is_array ++ [arg.type.is_array_like] }

/-- `function_signature(binder)`. -/
def function_signature (cfg : Config) (params : List ParamData) : FuncSig :=
  params.foldl (signature_step cfg) {}

/-! ## Constructors -/

structure CtorData where
  spelling : String := ""
  qualified_name : String := ""
  qualified_display_name : String := ""
  rtype : TypeData := { spelling := "void" }
  parameters : List ParamData := []
  is_public : Bool := true
  is_move_ctor : Bool := false
  deriving Repr, DecidableEq

/-- `CursorBinder.is_excluded` for constructors (the
`is_function or is_constructor` branch, with fnmatch patterns). -/
def CtorData.is_excluded (cfg : Config) (c : CtorData) : Bool :=
  cfg.excluded_functions.any (fun pat => fnmatch c.qualified_name pat) ||
  cfg.excluded_functions.any (fun pat => fnmatch c.qualified_display_name pat) ||
  cfg.excluded_rtypes.any (fun pat => fnmatch c.rtype.spelling pat)

/-- The binding emitted by one iteration of the `generate_ctor` loop
(argument count `i`). -/
def ctor_overload_src (cfg : Config) (parent_name : String) (binder : CtorData)
    (sig : FuncSig) (i : Nat) : String :=
  let names := sig.args_name.take i
  let types := sig.args_type.take i
  let signature := String.intercalate ", " types
  let py_args := String.join (names.map (fun name => ", py::arg(\"" ++ name ++ "\")"))
  let src := parent_name ++ ".def(py::init<" ++ signature ++ ">()" ++ py_args ++ ");\n"
  if binder.is_excluded cfg || binder.is_move_ctor || containsStr signature "&&" then
    "// " ++ src
  else src

/-- `generate_ctor(binder)`: one overload per argument count in
`range(nargs - ndefaults, nargs + 1)`. -/
def generate_ctor (cfg : Config) (parent_name : String) (binder : CtorData) :
    List String :=
  let sig := function_signature cfg binder.parameters
  (pyRange (sig.nargs - sig.ndefaults) (sig.nargs + 1)).map
    (ctor_overload_src cfg parent_name binder sig)

/-! ## Free functions -/

structure FunctionData where
  spelling : String := ""
  qualified_name : String := ""
  qualified_display_name : String := ""
  rtype : TypeData := { spelling := "void" }
  parameters : List ParamData := []
  docs : String := ""
  deriving Repr, DecidableEq

/-- `CursorBinder.is_excluded` for free functions. -/
def FunctionData.is_excluded (cfg : Config) (f : FunctionData) : Bool :=
  cfg.excluded_functions.any (fun pat => fnmatch f.qualified_name pat) ||
  cfg.excluded_functions.any (fun pat => fnmatch f.qualified_display_name pat) ||
  cfg.excluded_rtypes.any (fun pat => fnmatch f.rtype.spelling pat)

/-- `generate_function(binder)`: a single `mod.def` statement whose
default values are carried by the `py::arg` annotations (no overload
loop). -/
def generate_function (cfg : Config) (binder : FunctionData) : List String :=
  let fname := binder.spelling
  let qname := binder.qualified_name
  let docs := binder.docs
  let rtype :=
    if binder.rtype.is_opaque_ty cfg then
      "void* /* " ++ binder.rtype.spelling ++ " */"
    else binder.rtype.spelling
  let sig := function_signature cfg binder.parameters
  let signature := String.intercalate ", " sig.args_type
  let pfx := if binder.is_excluded cfg then "// excluded // " else ""
  let argsList := binder.parameters.map (fun arg =>
    let dv := if arg.default_value != "" then "=" ++ arg.default_value else ""
    "py::arg(\"" ++ arg.spelling ++ "\")" ++ dv)
  let args :=
    if argsList.isEmpty then "" else ", " ++ String.intercalate ", " argsList
  let interface := "(" ++ rtype ++ " (*) (" ++ signature ++ "))"
  let src0 := pfx ++ "mod.def(\"" ++ fname ++ "\", " ++ interface ++ " &" ++
    qname ++ ", \"" ++ docs ++ "\"" ++ args ++ ");\n\n"
  if sig.is_array.contains true then ["// " ++ src0] else [src0]

/-! ## Methods -/

structure MethodData where
  spelling : String := ""
  qualified_name : String := ""
  qualified_display_name : String := ""
  parent_qualified_name : String := ""
  parent_type_spelling : String := ""
  parent_is_class_template : Bool := false
  is_public : Bool := true
  is_static_method : Bool := false
  is_const_method : Bool := false
  is_pure_virtual_method : Bool := false
  -- `CursorBinder.is_getter_method` scans the parent's method list for a
  -- public `Set<name>` companion; carried as front-end data here.
  is_getter_method : Bool := false
  rtype : TypeData := { spelling := "void" }
  parameters : List ParamData := []
  docs : String := ""
  deriving Repr, DecidableEq

/-- `CursorBinder.is_excluded` for methods (the `is_cxx_method` branch:
static methods get `_` appended before matching). -/
def MethodData.is_excluded (cfg : Config) (m : MethodData) : Bool :=
  let name := if m.is_static_method then m.qualified_name ++ "_" else m.qualified_name
  let fname := if m.is_static_method then m.spelling ++ "_" else m.spelling
  cfg.excluded_functions.any (fun pat => fnmatch name pat) ||
  cfg.excluded_fnames.any (fun pat => fnmatch fname pat) ||
  cfg.excluded_functions.any (fun pat => fnmatch m.qualified_display_name pat) ||
  cfg.excluded_rtypes.any (fun pat => fnmatch m.rtype.spelling pat)

/-- `CursorBinder.is_operator` (membership in the PY_OPERATORS table). -/
def MethodData.is_operator (cfg : Config) (m : MethodData) : Bool :=
  (alookup cfg.py_operators m.spelling).isSome

/-- `CursorBinder.needs_inout_method`. -/
def MethodData.needs_inout_method (cfg : Config) (m : MethodData) : Bool :=
  m.parameters.any (fun a =>
    a.is_immutable cfg && !a.type.is_const_qualified && a.type.is_pointer_like)

/-- `generate_immutable_inout_method(binder, qname)`. -/
def generate_immutable_inout_method (cfg : Config) (binder : MethodData)
    (qname : String) : String :=
  let step := fun (acc : Nat × List (String × String) × List (String × String))
      (arg : ParamData) =>
    let (i, args, nci) := acc
    let ty := if arg.type.is_alias then arg.type.alias_spelling else arg.type.spelling
    let (name, i) :=
      if arg.spelling == "" then ("a" ++ toString i, i + 1) else (arg.spelling, i)
    let nci :=
      if !arg.type.is_const_qualified && arg.is_immutable cfg &&
          arg.type.is_pointer_like then
        nci ++ [(ty, name)]
      else nci
    (i, args ++ [(ty, name)], nci)
  let (_, args, non_const_immutable_args) :=
    binder.parameters.foldl step (0, [], [])
  let delimiter := if args.isEmpty then "" else ", "
  let argsTxt := String.intercalate ", " (args.map (fun p => p.1 ++ " " ++ p.2))
  let (is_static, interface_txt) :=
    if binder.is_static_method then (true, "(" ++ argsTxt ++ ")")
    else
      let pfx :=
        if binder.parent_is_class_template then binder.parent_qualified_name
        else binder.parent_type_spelling
      (false, "(" ++ pfx ++ " &self" ++ delimiter ++ argsTxt ++ ")")
  let is_void := binder.rtype.spelling == "void"
  let args_txt := String.intercalate ", " (args.map (fun p => p.2))
  let fcall := if is_static then qname else "self." ++ binder.spelling
  let rtype := binder.rtype.spelling
  let func_txt :=
    if is_void then "\x7b " ++ fcall ++ "(" ++ args_txt ++ "); "
    else "\x7b " ++ rtype ++ " rv = " ++ fcall ++ "(" ++ args_txt ++ "); "
  let return_args := String.intercalate ", " (non_const_immutable_args.map (fun p => p.2))
  let return_types := String.intercalate ", " (non_const_immutable_args.map (fun p => p.1))
  let return_txt :=
    if is_void then
      if non_const_immutable_args.length > 1 then
        "return std::tuple<" ++ return_types ++ ">(" ++ return_args ++ "); \x7d"
      else
        "return " ++ return_args ++ "; \x7d"
    else
      "return std::tuple<" ++ rtype ++ ", " ++ return_types ++ ">(rv, " ++
        return_args ++ "); \x7d"
  "[]" ++ interface_txt ++ func_txt ++ return_txt

/-- The binding emitted by one iteration of the `generate_method` loop
(argument count `i`), in the non-inout case. -/
def method_overload_src (sig : FuncSig)
    (pfx is_static fname rtype ptr is_const qname is_operator_txt docs
      return_policy keep_alive cguards : String) (i : Nat) : String :=
  if i == sig.nargs then
    let names := sig.args_name.take i
    let types := sig.args_type.take i
    let signature := String.intercalate ", " types
    let py_args := String.join (names.map (fun n => ", py::arg(\"" ++ n ++ "\")"))
    let src := pfx ++ ".def" ++ is_static ++ "(\"" ++ fname ++ "\", (" ++ rtype ++
      " (" ++ ptr ++ ")(" ++ signature ++ ")" ++ is_const ++ ") &" ++ qname ++
      ", " ++ is_operator_txt ++ "\"" ++ docs ++ "\"" ++ py_args ++
      return_policy ++ keep_alive ++ cguards ++ ");\n"
    if sig.is_array.contains true || containsStr signature "&&" then "// " ++ src
    else src
  else
    let arg_list := sig.args_type.take i
    let signature0 :=
      if is_static != "" then ""
      else
        let parent_spelling :=
          String.intercalate "::" (((pySplitOn qname "::").dropLast))
        parent_spelling ++ " &self"
    let step := fun (acc : Nat × String × List String) (ty : String) =>
      let (k, signature, call_args) := acc
      let signature :=
        if signature == "" then signature ++ ty ++ " a" ++ toString k
        else signature ++ ", " ++ ty ++ " a" ++ toString k
      (k + 1, signature, call_args ++ ["a" ++ toString k])
    let (_, signature, call_args) := arg_list.foldl step (0, signature0, [])
    let call := String.intercalate ", " call_args
    let qname_ := if is_static == "" then "self." ++ fname else qname
    let src := pfx ++ ".def" ++ is_static ++ "(\"" ++ fname ++ "\", [](" ++
      signature ++ ") -> " ++ rtype ++ " \x7b return " ++ qname_ ++ "(" ++ call ++
      "); \x7d" ++ cguards ++ ");\n"
    let src := if is_operator_txt != "" then "// " ++ src else src
    if sig.is_array.contains true || containsStr signature "&&" then "// " ++ src
    else src

/-- `generate_method(binder)` with the binding parent name passed
explicitly (the Python caller sets `binder.parent_name` before the
call).  An inout method short-circuits to a single adapter binding from
inside the first loop iteration; otherwise one binding is emitted per
argument count in `range(nargs - ndefaults, nargs + 1)`. -/
def generate_method (cfg : Config) (parent_name : String) (binder : MethodData) :
    List String :=
  let is_static := if binder.is_static_method then "_static" else ""
  let fname := binder.spelling ++ (if is_static != "" then "_" else "")
  let pfx :=
    if binder.is_excluded cfg then "// excluded // " ++ parent_name
    else if binder.is_pure_virtual_method then "// virtual // " ++ parent_name
    else parent_name
  let rtype :=
    if binder.rtype.is_opaque_ty cfg then
      "void* /* " ++ binder.rtype.spelling ++ " */"
    else if binder.rtype.is_alias then binder.rtype.alias_spelling
    else binder.rtype.spelling
  let qname := binder.qualified_name
  let ptr :=
    if !binder.is_static_method then binder.parent_qualified_name ++ "::*" else "*"
  let is_const := if binder.is_const_method then " const" else ""
  let docs := binder.docs
  -- PY_OPERATORS[fname]; the `getD` default is unreachable since
  -- `is_operator` checks membership (a static operator would raise in
  -- the Python, which does not occur).
  let (fname, is_operator_txt) :=
    if binder.is_operator cfg then
      ((alookup cfg.py_operators fname).getD fname, "py::is_operator(), ")
    else (fname, "")
  let sig := function_signature cfg binder.parameters
  let return_policy :=
    match alookup cfg.return_policies qname with
    | some p => ", py::return_value_policy::" ++ p
    | none =>
      if binder.is_getter_method then ", py::return_value_policy::reference_internal"
      else ""
  let keep_alive :=
    match alookup cfg.keep_alive qname with
    | some v => ", py::keep_alive<" ++ v ++ ">()"
    | none => ""
  let cguards :=
    match alookup cfg.call_guards qname with
    | some l => ", " ++ String.intercalate ", " l
    | none => ""
  if binder.needs_inout_method cfg then
    let txt := generate_immutable_inout_method cfg binder qname
    let py_args :=
      String.join (sig.args_name.map (fun n => ", py::arg(\"" ++ n ++ "\")"))
    let src := pfx ++ ".def" ++ is_static ++ "(\"" ++ fname ++ "\", " ++ txt ++
      ", \"" ++ docs ++ "\"" ++ py_args ++ ");\n"
    if sig.is_array.contains true then ["// " ++ src] else [src]
  else
    (pyRange (sig.nargs - sig.ndefaults) (sig.nargs + 1)).map
      (method_overload_src sig pfx is_static fname rtype ptr is_const
        qname is_operator_txt docs return_policy keep_alive cguards)

/-! ## Enums -/

structure EnumConstData where
  spelling : String := ""
  qualified_name : String := ""
  type_spelling : String := ""
  deriving Repr, DecidableEq

structure EnumData where
  python_name : String := ""
  qualified_name : String := ""
  type_spelling : String := ""
  docs : String := ""
  enum_constants : List EnumConstData := []
  is_public : Bool := true
  deriving Repr, DecidableEq

/-- `CursorBinder.is_excluded` for enums. -/
def EnumData.is_excluded (cfg : Config) (e : EnumData) : Bool :=
  cfg.excluded_enums.contains e.qualified_name

/-- Leftmost match index of `re.search(r'\((anonymous|unnamed)', s)`. -/
def firstIdxAnon (s : String) : Option Nat :=
  match firstIdx s "(anonymous", firstIdx s "(unnamed" with
  | some a, some b => some (min a b)
  | some a, none => some a
  | none, some b => some b
  | none, none => none

/-- `generate_enum(binder)` with the binding parent name passed
explicitly. -/
def generate_enum (cfg : Config) (parent_name : String) (binder : EnumData) :
    List String :=
  let qname := binder.qualified_name
  let parent := parent_name
  let docs := binder.docs
  let name := (alookup cfg.python_names qname).getD binder.python_name
  let src :=
    if containsStr binder.type_spelling "anonymous enum" ||
        containsStr binder.type_spelling "unnamed enum" then
      binder.enum_constants.map (fun e =>
        let name := e.spelling
        let qname := e.qualified_name
        let qname :=
          match firstIdxAnon e.type_spelling with
          | some indx =>
            if indx != 0 then (e.type_spelling.take indx) ++ e.spelling else qname
          | none => qname
        parent ++ ".attr(\"" ++ name ++ "\") = py::cast(int(" ++
          (if qname != "" then qname else name) ++ "));\n")
    else
      let name :=
        if name == "" then pyReplace binder.type_spelling "::" "_" else name
      let qname := if qname == "" then binder.type_spelling else qname
      let head := "py::enum_<" ++ qname ++ ">(" ++ parent ++ ", \"" ++ name ++
        "\", \"" ++ docs ++ "\")\n"
      let vals := binder.enum_constants.map (fun e =>
        let q := e.qualified_name
        let q :=
          if pyStartsWith q "::" then binder.type_spelling ++ q
          else if !containsStr q "::" then e.type_spelling ++ "::" ++ e.spelling
          else q
        "\t.value(\"" ++ e.spelling ++ "\", " ++ q ++ ")\n")
      head :: vals ++ ["\t.export_values();\n"]
  if binder.is_excluded cfg then "/*\n" :: src ++ ["*/\n"] else src

/-! ## Fields -/

structure FieldData where
  spelling : String := ""
  qualified_name : String := ""
  parent_qualified_name : String := ""
  type : TypeData := {}
  docs : String := ""
  is_bitfield : Bool := false
  is_public : Bool := true
  deriving Repr, DecidableEq

/-- `CursorBinder.is_excluded` for fields. -/
def FieldData.is_excluded (cfg : Config) (f : FieldData) : Bool :=
  cfg.excluded_fields.contains f.qualified_name

/-- `generate_field(binder)` with the binding parent name passed
explicitly. -/
def generate_field (cfg : Config) (parent_name : String) (binder : FieldData) :
    List String :=
  let name := binder.spelling
  let qname := binder.qualified_name
  let docs := binder.docs
  let ty := if binder.type.is_const_qualified then "readonly" else "readwrite"
  let pfx := if binder.is_excluded cfg then "// " ++ parent_name else parent_name
  let src :=
    if binder.is_bitfield then
      let ftype := binder.type.spelling
      let parent := binder.parent_qualified_name
      let reader := "[](" ++ parent ++ "& self) -> " ++ ftype ++ " \x7b return self." ++
        name ++ "; \x7d"
      -- the Python compares against "_readonly", which `ty` never equals,
      -- so the property pair is always emitted for bitfields
      if ty == "_readonly" then
        [pfx ++ ".def_property_readonly(\"" ++ name ++ "\", " ++ reader ++ ", \"" ++
          docs ++ "\");\n"]
      else
        let writer := "[](" ++ parent ++ "& self, const " ++ ftype ++
          " value) \x7b self." ++ name ++ " = value; \x7d"
        [pfx ++ ".def_property(\"" ++ name ++ "\", " ++ reader ++ ", " ++ writer ++
          ", \"" ++ docs ++ "\");\n"]
    else
      [pfx ++ ".def_" ++ ty ++ "(\"" ++ name ++ "\", &" ++ qname ++ ", \"" ++
        docs ++ "\");\n"]
  if binder.type.is_array_like then
    match src with
    | s :: rest => ("// " ++ s) :: rest
    | [] => []
  else src

/-! ## Classes -/

/-- `MacroForHandle`: name plus its two captured types. -/
structure MacroData where
  name : String := ""
  type1 : String := ""
  type2 : String := ""
  deriving Repr, DecidableEq

/-- `MacroForHandle.macro2func` (identity fallback is unreachable: only
relevant macros are instantiated). -/
def macro2func (n : String) : String :=
  if n == "DEFINE_HARRAY1" then "bind_Define_HArray1"
  else if n == "DEFINE_HARRAY2" then "bind_Define_HArray2"
  else if n == "DEFINE_HSEQUENCE" then "bind_Define_HSequence"
  else n

/-- `MacroForHandle.generate`. -/
def MacroData.generate (m : MacroData) : String :=
  macro2func m.name ++ "<" ++ m.type1 ++ ", " ++ m.type2 ++ ">(mod, \"" ++
    m.type1 ++ "\");"

structure DtorData where
  is_public : Bool := true
  deriving Repr, DecidableEq

/-- One `CXX_BASE_SPECIFIER` child: its access, type spelling, and the
transient classification of `base.type.get_declaration()` and of
`base.type.get_canonical().get_declaration()` (the two cursors whose
`holder_type` the base loop consults). -/
structure BaseData where
  is_public : Bool := true
  type_spelling : String := ""
  decl_is_transient : Bool := false
  canonical_decl_is_transient : Bool := false
  deriving Repr, DecidableEq

/-- `CursorBinder.holder_type` as a function of the transient flag. -/
def holder_type_of (is_transient : Bool) : String :=
  if is_transient then "opencascade::handle" else "std::unique_ptr"

structure ClassCore where
  spelling : String := ""
  python_name : String := ""
  qualified_name : String := ""
  docs : String := ""
  is_nested : Bool := false
  parent_python_name : String := ""
  parent_is_class_template : Bool := false
  is_class_template : Bool := false
  is_transient : Bool := false
  is_abstract : Bool := false
  -- `any(binder.get_children())` on the raw cursor
  has_any_child : Bool := true
  -- `binder.alias is not None`
  has_alias : Bool := false
  -- truthiness of `CursorBinder.has_unimplemented_methods`
  has_unimplemented_methods : Bool := false
  macro_info : Option MacroData := none
  dtors : List DtorData := []
  bases : List BaseData := []
  ctors : List CtorData := []
  -- `item.ctors` for each member of `CursorBinder._all_bases`
  all_bases_ctors : List (List CtorData) := []
  fields : List FieldData := []
  methods : List MethodData := []
  enums : List EnumData := []
  is_public : Bool := true
  deriving Repr, DecidableEq

/-- `CursorBinder.needs_nodelete`: any non-public destructor. -/
def needs_nodelete (c : ClassCore) : Bool :=
  c.dtors.any (fun d => !d.is_public)

/-- `CursorBinder.needs_default_ctor`: not abstract, and neither the
class itself nor any transitive base declares a constructor. -/
def needs_default_ctor (c : ClassCore) : Bool :=
  if c.is_abstract then false
  else (c.ctors :: c.all_bases_ctors).all (fun l => l.isEmpty)

/-- `CursorBinder.is_maybe_iterable`: public `begin` and `end` methods. -/
def is_maybe_iterable (c : ClassCore) : Bool :=
  let names := (c.methods.filter (fun m => m.is_public)).map (fun m => m.spelling)
  names.contains "begin" && names.contains "end"

/-- `CursorBinder.is_excluded` for classes and class templates. -/
def ClassCore.is_excluded (cfg : Config) (c : ClassCore) : Bool :=
  cfg.excluded_classes.contains c.qualified_name

/-- The holder annotation and holder type chosen by `generate_class`
(transient handle, else nodelete unique_ptr, else plain unique_ptr). -/
def class_holder (cfg : Config) (c : ClassCore) : String × String :=
  if c.is_transient then
    (", opencascade::handle<" ++ c.qualified_name ++ ">", "opencascade::handle")
  else if needs_nodelete c || cfg.nodelete.contains c.qualified_name then
    (", std::unique_ptr<" ++ c.qualified_name ++ ", py::nodelete>", "std::unique_ptr")
  else ("", "std::unique_ptr")

/-- The `-base` exclusion list applicable to this class (`qname` first,
then the python name). -/
def class_excluded_bases (cfg : Config) (c : ClassCore) : List String :=
  match alookup cfg.excluded_bases c.qualified_name with
  | some l => l
  | none => (alookup cfg.excluded_bases c.python_name).getD []

/-- The base-class loop of `generate_class`: keeps a public,
non-excluded base only when its holder type (handle if either the
declaration or the canonical declaration is transient) agrees with the
class's own holder type. -/
def class_base_names (cfg : Config) (c : ClassCore) : List String :=
  let holder_type := (class_holder cfg c).2
  let excluded_bases := class_excluded_bases cfg c
  c.bases.foldl
    (fun acc base =>
      if !base.is_public then acc
      else
        let name := base.type_spelling
        if excluded_bases.contains name || cfg.excluded_classes.contains name then
          acc
        else
          let holder1 := holder_type_of base.decl_is_transient
          let holder2 := holder_type_of base.canonical_decl_is_transient
          let base_holder_type :=
            if holder1 == "opencascade::handle" || holder2 == "opencascade::handle"
            then "opencascade::handle" else "std::unique_ptr"
          -- mismatched holder types: logged and the base is dropped
          if holder_type != base_holder_type then acc
          else acc ++ [name])
    []


/-- The holder classification the base loop computes for a base: handle
if either the declaration or the canonical declaration is transient,
else plain `std::unique_ptr` (the `py::nodelete` refinement is never
consulted here). -/
def base_holder_model (b : BaseData) : String :=
  if holder_type_of b.decl_is_transient == "opencascade::handle" ||
      holder_type_of b.canonical_decl_is_transient == "opencascade::handle" then
    "opencascade::handle"
  else "std::unique_ptr"

/-- Declarative form of the base-loop keep condition: public, not
excluded, and the class's holder type string agrees with the base's
handle-vs-unique_ptr classification. -/
def base_kept (cfg : Config) (c : ClassCore) (b : BaseData) : Bool :=
  b.is_public &&
  !((class_excluded_bases cfg c).contains b.type_spelling ||
    cfg.excluded_classes.contains b.type_spelling) &&
  ((class_holder cfg c).2 == base_holder_model b)

/-- The `py::class_<...>` registration statement of `generate_class`. -/
def class_registration_line (cfg : Config) (c : ClassCore) : String :=
  let qname := c.qualified_name
  let source_name := (alookup cfg.python_names qname).getD c.python_name
  let cls :=
    if c.is_nested then "cls_" ++ c.parent_python_name ++ "_" ++ source_name
    else "cls_" ++ source_name
  let holder := (class_holder cfg c).1
  let base_names := class_base_names cfg c
  let bases :=
    if base_names.isEmpty then "" else ", " ++ String.intercalate ", " base_names
  let multi_base :=
    if c.bases.length > 1 && base_names.length < c.bases.length then
      ", py::multiple_inheritance()"
    else ""
  let name_ :=
    if c.is_class_template then "name.c_str()" else "\"" ++ c.python_name ++ "\""
  let name_ :=
    match alookup cfg.python_names qname with
    | some n => "\"" ++ n ++ "\""
    | none => name_
  let parent :=
    if c.is_nested && cfg.nested_classes.contains qname then
      "cls_" ++ c.parent_python_name
    else "mod"
  let local_ :=
    if c.is_class_template || c.parent_is_class_template then ", local"
    else if c.has_alias then ", py::module_local()"
    else ""
  let tname := if containsStr qname "::" then "typename " ++ qname else qname
  "py::class_<" ++ tname ++ holder ++ bases ++ "> " ++ cls ++ "(" ++ parent ++
    ", " ++ name_ ++ ", \"" ++ c.docs ++ "\"" ++ multi_base ++ local_ ++ ");\n"

/-- The `cls` variable used as binding parent for members. -/
def class_cls_name (cfg : Config) (c : ClassCore) : String :=
  let source_name := (alookup cfg.python_names c.qualified_name).getD c.python_name
  if c.is_nested then "cls_" ++ c.parent_python_name ++ "_" ++ source_name
  else "cls_" ++ source_name

/-- The constructor section of `generate_class` (without the section
header): public constructors, else the synthesized default constructor
when eligible. -/
def class_ctor_section (cfg : Config) (c : ClassCore) : List String :=
  let cls := class_cls_name cfg c
  if !c.is_abstract then
    let fromCtors :=
      (c.ctors.filter (fun i => i.is_public)).flatMap (generate_ctor cfg cls)
    if fromCtors.isEmpty && needs_default_ctor c &&
        !cfg.excluded_functions.contains c.qualified_name then
      let line := cls ++ ".def(py::init<>());\n"
      if c.has_unimplemented_methods then
        ["// abstract virtual methods // " ++ line]
      else [line]
    else fromCtors
  else []

/-- A class binder together with its nested class binders (the
`binder.nested_classes` children that `generate_class` recurses into). -/
inductive ClassBinder where
  | mk (core : ClassCore) (nested : List ClassBinder)
  deriving Repr

def ClassBinder.core : ClassBinder → ClassCore
  | .mk c _ => c

def ClassBinder.nested : ClassBinder → List ClassBinder
  | .mk _ n => n

/-- `generate_class(binder)` with the recursion over nested classes
supplied as already-generated results (core data plus source). -/
def generate_class_aux (cfg : Config) (c : ClassCore)
    (nestedResults : List (ClassCore × List String)) : List String :=
  match c.macro_info with
  | some m => [m.generate, "\n"]
  | none =>
    if !c.has_any_child then []
    else
      let qname := c.qualified_name
      let src_before :=
        match alookup cfg.before_type qname with
        | some l => ["// Before type\n"] ++ l.map (fun txt => txt ++ "\n") ++ ["\n"]
        | none => []
      let cls := class_cls_name cfg c
      let src_ctor := class_ctor_section cfg c
      let src_ctor' :=
        if !src_ctor.isEmpty then "\n// Constructors\n" :: src_ctor else []
      let src_fields :=
        (c.fields.filter (fun i => i.is_public)).flatMap (generate_field cfg cls)
      let src_fields' :=
        if !src_fields.isEmpty then "\n// Fields\n" :: src_fields else []
      let src_methods :=
        (c.methods.filter (fun i => i.is_public)).flatMap (generate_method cfg cls)
      let src_methods' :=
        if !src_methods.isEmpty then "\n// Methods\n" :: src_methods else []
      -- Python `src += str` extends the list with the string's characters
      let src_iter :=
        if is_maybe_iterable c then
          (cls ++ ".def(\"__iter__\", [](const " ++ qname ++
            " &self) \x7b return py::make_iterator(self.begin(), self.end()); \x7d, py::keep_alive<0, 1>());\n").toList.map
            (fun ch => String.singleton ch)
        else []
      let src_enums :=
        (c.enums.filter (fun i => i.is_public)).flatMap (generate_enum cfg cls)
      let src_enums' :=
        if !src_enums.isEmpty then "\n// Enums\n" :: src_enums else []
      let keptNested := nestedResults.filter
        (fun p => cfg.nested_classes.contains p.1.qualified_name && p.1.is_public)
      let src_nested :=
        if !keptNested.isEmpty then
          "\n// Nested classes\n" :: keptNested.flatMap (fun p => p.2)
        else []
      let src_after :=
        match alookup cfg.after_type qname with
        | some l => ["\n// After type\n"] ++ l.flatMap (fun txt => [txt, "\n"])
        | none => []
      let src := src_before ++ [class_registration_line cfg c] ++ src_ctor' ++
        src_fields' ++ src_methods' ++ src_iter ++ src_enums' ++ src_nested ++
        src_after
      if c.is_excluded cfg then "/*\n" :: src ++ ["*/\n"] else src

/-- `generate_class(binder)`. -/
def generate_class (cfg : Config) : ClassBinder → List String
  | .mk core nested =>
    generate_class_aux cfg core
      (nested.attach.map (fun x => (x.1.core, generate_class cfg x.1)))
termination_by b => sizeOf b
decreasing_by
  cases x with
  | mk y hy =>
    have h := List.sizeOf_lt_of_mem hy
    simp only [ClassBinder.mk.sizeOf_spec]
    omega

/-! ## Typedefs -/

/-- The alias binder recorded on a typedef (the previously seen
declaration with the same canonical spelling): the fields
`generate_typedef2` reads from it. -/
structure AliasInfo where
  python_name : String := ""
  module_name : String := ""
  deriving Repr, DecidableEq

structure TypedefData where
  spelling : String := ""
  python_name : String := ""
  qualified_name : String := ""
  module_name : String := ""
  parent_name : String := "mod"
  alias_target : Option AliasInfo := none
  -- `binder.type.get_canonical()` and its declaration
  canonical_spelling : String := ""
  canonical_is_record : Bool := false
  decl_spelling : String := ""
  -- `decl.get_specialization().is_class_template` (with no_decl false)
  template_is_class_template : Bool := false
  decl_is_class : Bool := false
  decl_class : ClassBinder := ClassBinder.mk {} []
  deriving Repr

def ClassBinder.withPythonName (n : String) : ClassBinder → ClassBinder
  | .mk c ns => .mk { c with python_name := n } ns

def ClassBinder.withAlias (b : Bool) : ClassBinder → ClassBinder
  | .mk c ns => .mk { c with has_alias := b } ns

/-- The non-alias tail of `generate_typedef2` (canonical type is a
template specialization, a recognized `std::vector`, or a plain class).
The Python sets `decl.alias = alias` before dispatching; that assignment
only influences the generated class's `py::module_local()` flag. -/
def typedef_bind_class (cfg : Config) (binder : TypedefData) :
    List String × Option (List String) × List String :=
  let local_ :=
    if binder.alias_target.isSome then ", py::module_local()" else ", py::module_local(false)"
  if binder.canonical_is_record && binder.template_is_class_template then
    if pyStartsWith binder.canonical_spelling "std::vector" then
      (["py::bind_vector<" ++ binder.canonical_spelling ++ ">(" ++
          binder.parent_name ++ ", \"" ++ binder.python_name ++ "\");\n"],
       some [],
       ["PYBIND11_MAKE_OPAQUE(" ++ binder.canonical_spelling ++ ")\n"])
    else
      (["bind_" ++ binder.canonical_spelling ++ "(" ++ binder.parent_name ++
          ", \"" ++ binder.python_name ++ "\"" ++ local_ ++ ");\n"],
       some ["bind_" ++ binder.decl_spelling], [])
  else if binder.canonical_is_record && binder.decl_is_class then
    let decl :=
      (binder.decl_class.withPythonName binder.spelling).withAlias binder.alias_target.isSome
    (generate_class cfg decl, some [], [])
  else
    ([], some [], [])

/-- `generate_typedef2(binder)`: an alias in the same module is bound by
an attribute copy referencing the alias's python name; anything else
falls through to class/template binding. -/
def generate_typedef2 (cfg : Config) (binder : TypedefData) :
    List String × Option (List String) × List String :=
  match binder.alias_target with
  | some a =>
    if binder.module_name == a.module_name then
      (["if (py::hasattr(mod, \"" ++ a.python_name ++ "\")) \x7b\n",
        "\tmod.attr(\"" ++ binder.python_name ++ "\") = mod.attr(\"" ++
          a.python_name ++ "\");\n",
        "\x7d\n"],
       none, [])
    else typedef_bind_class cfg binder
  | none => typedef_bind_class cfg binder

/-! ## Traversal (`Generator.traverse` / `traverse_binder`)

The pre-order walk over the translation unit with its acceptance
filters, module bucketing, canonical-type map and alias marking.  A
ghost `trace` field records the global acceptance order of classes and
typedefs; it duplicates information already in the per-module lists and
exists only so invariants can speak about first/last-seen entries. -/

inductive TKind where
  | enumDecl
  | functionDecl
  | classDecl
  | typedefDecl
  | classTemplateDecl
  | namespaceDecl
  | other
  deriving Repr, DecidableEq, BEq

/-- The libclang-derived attributes of one cursor that the traversal
consults. -/
structure TravData where
  is_definition : Bool := true
  spelling : String := ""
  kind : TKind := TKind.other
  filename : Option String := none
  qualified_name : String := ""
  type_spelling : String := ""
  canonical_spelling : String := ""
  python_name : String := ""
  deriving Repr, DecidableEq

/-- Module name derivation from the declaring file (the
`CursorBinder.__init__` logic: split on `_` if present, else on `.`). -/
def module_name_of (fname : Option String) : String :=
  match fname with
  | none => "__None__"
  | some name =>
    let delim := if containsStr name "_" then "_" else "."
    (pySplitOn name delim).headD name

inductive TravNode where
  | mk (data : TravData) (children : List TravNode)
  deriving Repr

def TravNode.data : TravNode → TravData
  | .mk d _ => d

/-- An entry of a module's `types` list: the binder plus the mutable
`alias`/`macro` attributes the traversal may set on it. -/
structure TypesEntry where
  data : TravData
  alias_target : Option TravData := none
  macro_info : Option MacroData := none
  deriving Repr, DecidableEq

structure ModLists where
  enums : List TravData := []
  funcs : List TravData := []
  types : List TypesEntry := []
  templates : List TravData := []
  deriving Repr, DecidableEq

structure TravState where
  canonical_types : List (String × TravData) := []
  mods : List (String × ModLists) := []
  -- ghost: global acceptance order of classes and typedefs
  trace : List TypesEntry := []
  deriving Repr, DecidableEq

/-- Traversal-time configuration: the rule tables, the enabled cursor
kinds (`Generator.to_bind` with every `bind_*` flag on by default), and
the handle macros discovered up front. -/
structure TravConfig where
  cfg : Config := {}
  to_bind : List TKind :=
    [TKind.enumDecl, TKind.functionDecl, TKind.classDecl, TKind.typedefDecl,
     TKind.classTemplateDecl]
  available_macros : List (String × MacroData) := []
  deriving Repr

/-- Update (or create) the module record for `name`. -/
def mod_update (st : TravState) (name : String) (f : ModLists → ModLists) :
    TravState :=
  match alookup st.mods name with
  | some l => { st with mods := aset st.mods name (f l) }
  | none => { st with mods := st.mods ++ [(name, f {})] }

/-- The acceptance tail of `traverse_binder`: bucket the accepted cursor
into its module by kind, maintaining the canonical-type map (classes
overwrite, typedefs insert if absent) and marking typedef aliases. -/
def trav_accept (tc : TravConfig) (st : TravState) (mod_name qname : String)
    (d : TravData) : TravState :=
  if d.kind == TKind.enumDecl then
    mod_update st mod_name (fun l => { l with enums := l.enums ++ [d] })
  else if d.kind == TKind.functionDecl then
    mod_update st mod_name (fun l => { l with funcs := l.funcs ++ [d] })
  else if d.kind == TKind.classDecl then
    let e : TypesEntry :=
      { data := d, macro_info := alookup tc.available_macros qname }
    let st := mod_update st mod_name (fun l => { l with types := l.types ++ [e] })
    { st with
      canonical_types := aset st.canonical_types d.canonical_spelling d
      trace := st.trace ++ [e] }
  else if d.kind == TKind.typedefDecl then
    match alookup st.canonical_types d.canonical_spelling with
    | some a =>
      let e : TypesEntry := { data := d, alias_target := some a }
      let st := mod_update st mod_name (fun l => { l with types := l.types ++ [e] })
      { st with trace := st.trace ++ [e] }
    | none =>
      let e : TypesEntry := { data := d }
      let st := mod_update st mod_name (fun l => { l with types := l.types ++ [e] })
      { st with
        canonical_types := aset st.canonical_types d.canonical_spelling d
        trace := st.trace ++ [e] }
  else if d.kind == TKind.classTemplateDecl then
    mod_update st mod_name (fun l => { l with templates := l.templates ++ [d] })
  else
    st

/-- `Generator.traverse_binder`: the guard chain, with transparent
recursion into (non-excluded, non-reserved) namespaces. -/
def traverse_binder (tc : TravConfig) (st : TravState) : TravNode → TravState
  | .mk d children =>
    if !d.is_definition && !pyStartsWith d.spelling "IGESFile" &&
        !pyStartsWith d.spelling "StepFile" then st
    else if d.kind == TKind.namespaceDecl then
      if pyStartsWith d.spelling "__" ||
          tc.cfg.excluded_namespaces.contains d.spelling then st
      else children.attach.foldl (fun s x => traverse_binder tc s x.1) st
    else if !tc.to_bind.contains d.kind then st
    else if pyStartsWith d.spelling "Handle_" then st
    else if d.kind == TKind.functionDecl && pyStartsWith d.spelling "operator" then st
    else
      match d.filename with
      | none => st
      | some inc =>
        if tc.cfg.excluded_headers.contains inc ||
            !tc.cfg.available_incs.contains inc then st
        else
          let mod_name := module_name_of d.filename
          if !tc.cfg.available_mods.contains mod_name then st
          else
            let qname := d.qualified_name
            if tc.cfg.skipped.contains qname then st
            else
              let qname :=
                if qname == "" && d.kind == TKind.enumDecl then d.type_spelling
                else qname
              if qname == "" then st
              else trav_accept tc st mod_name qname d
termination_by n => sizeOf n
decreasing_by
  cases x with
  | mk y hy =>
    have h := List.sizeOf_lt_of_mem hy
    simp only [TravNode.mk.sizeOf_spec]
    omega

/-- `Generator.traverse`: fold the walk over the translation unit's
top-level cursors, starting from an empty canonical-type map. -/
def traverse_tu (tc : TravConfig) (roots : List TravNode) : TravState :=
  roots.foldl (traverse_binder tc) {}

/-- The alias target the traversal's canonical-type map holds for a
canonical spelling, in terms of the acceptance history: the most
recently accepted class with that spelling (classes overwrite the map
entry), else the first accepted typedef with it. -/
def aliasTarget (trace : List TypesEntry) (s : String) : Option TravData :=
  match (trace.filter (fun e =>
      e.data.kind == TKind.classDecl && e.data.canonical_spelling == s)).getLast? with
  | some e => some e.data
  | none =>
    ((trace.find? (fun e =>
        e.data.kind == TKind.typedefDecl && e.data.canonical_spelling == s)).map
      (fun e => e.data))

/-! ## Specification-side notions

Relations and invariants used to state the properties (not translations
of source code): the import-edge relation and transitive import
closure, registry well-formedness, the DFS budget, and the traversal
trace invariant. -/

/-- One import edge: module (or available placeholder) `x` imports `y`. -/
def impEdge (available : List String) (mods : List PyModule) (x y : String) :
    Prop :=
  ∃ m, get_module available mods x = some m ∧ y ∈ m.imports

/-- `y` is in `x`'s transitive import closure. -/
def TransImport (available : List String) (mods : List PyModule) (x y : String) :
    Prop :=
  Relation.TransGen (impEdge available mods) x y

/-- Every name imported by a registered module is itself available. -/
def RegistryClosed (available : List String) (mods : List PyModule) : Prop :=
  ∀ m ∈ mods, ∀ i ∈ m.imports, available.contains i = true

/-- Remaining work bound for `dependent_dfs`: the stack plus the
imports of every not-yet-visited registered module. -/
def dfs_budget (mods : List PyModule) (visited stack : List String) : Nat :=
  stack.length +
    (((mods.filter (fun m => !(visited.contains m.name))).map
      (fun m => m.imports.length)).sum)

/-- Invariant tying the traversal's canonical-type map and the recorded
typedef aliases to the acceptance history. -/
def TraceInv (st : TravState) : Prop :=
  (∀ s, alookup st.canonical_types s = aliasTarget st.trace s) ∧
  (∀ n (h : n < st.trace.length),
    (st.trace.get ⟨n, h⟩).data.kind = TKind.typedefDecl →
    (st.trace.get ⟨n, h⟩).alias_target =
      aliasTarget (st.trace.take n) (st.trace.get ⟨n, h⟩).data.canonical_spelling)

/-! ## Concrete instances used by witnesses and counterexamples -/

def exIntTy : TypeData := { spelling := "int" }

/-- A free function `void f(int x = 5)`. -/
def exDefFn : FunctionData :=
  { spelling := "f", qualified_name := "f", rtype := { spelling := "void" },
    parameters := [{ spelling := "x", type := exIntTy, default_value := "5" }] }

/-- A method `int C::M(int x, int y = 1)`. -/
def exMethod : MethodData :=
  { spelling := "M", qualified_name := "C::M", parent_qualified_name := "C",
    rtype := { spelling := "int" },
    parameters := [{ spelling := "x", type := exIntTy },
                   { spelling := "y", type := exIntTy, default_value := "1" }] }

/-- A constructor `C::C(int x = 2)`. -/
def exCtor : CtorData :=
  { spelling := "C", qualified_name := "C::C",
    parameters := [{ spelling := "x", type := exIntTy, default_value := "2" }] }

def exInoutCfg : Config := { immutable := ["int"] }

/-- A method `void C::Get(int &x = 3)` whose parameter is a non-const
reference to a configured-immutable type (with a default value). -/
def exInoutMethod : MethodData :=
  { spelling := "Get", qualified_name := "C::Get", parent_qualified_name := "C",
    parent_type_spelling := "C", rtype := { spelling := "void" },
    parameters := [{ spelling := "x",
                     type := { spelling := "int &", is_lvalue := true,
                               pointee_spelling := "int" },
                     default_value := "3" }] }

/-- Registry for the circularity counterexample: `A` imports the
unavailable `X` before `B`; `B` imports `A`. -/
def cexModA : PyModule := { name := "A", imports := ["X", "B"] }
def cexModB : PyModule := { name := "B", imports := ["A"] }

/-- A clean two-module cycle over a closed registry. -/
def wModA : PyModule := { name := "A", imports := ["B"] }
def wModB : PyModule := { name := "B", imports := ["A"] }

def exMod9A : PyModule := { name := "A" }
def exMod9B : PyModule := { name := "B" }
def exMod9C : PyModule := { name := "C" }

/-- An excluded module owning one class template. -/
def exModX : PyModule := { name := "X", templates := ["TTempl"] }
def exBindCfg : Config := { excluded_mods := ["X"] }

/-- A class with only a private destructor, otherwise eligible for a
default constructor. -/
def exPrivDtorCore : ClassCore :=
  { spelling := "P", python_name := "P", qualified_name := "P",
    dtors := [{ is_public := false }] }

/-- A non-transient class with a private destructor (nodelete holder)
and one public base with the plain unique_ptr holder. -/
def exC4Core : ClassCore :=
  { spelling := "C", python_name := "C", qualified_name := "C",
    dtors := [{ is_public := false }],
    bases := [{ type_spelling := "B" }] }

/-- A plain class with one public base whose declaration resolves to
the reference-counted handle holder. -/
def exC4MismatchCore : ClassCore :=
  { spelling := "D", python_name := "D", qualified_name := "D",
    bases := [{ type_spelling := "H", decl_is_transient := true }] }

/-- An excluded class bound through a handle macro. -/
def exMacroCore : ClassCore :=
  { spelling := "X", python_name := "X", qualified_name := "X",
    macro_info := some { name := "DEFINE_HARRAY1", type1 := "T1", type2 := "T2" } }
def exMacroCfg : Config := { excluded_classes := ["X"] }

/-- An excluded enum with one constant. -/
def exEnum : EnumData :=
  { python_name := "E", qualified_name := "E", type_spelling := "E",
    enum_constants := [{ spelling := "A", qualified_name := "E::A",
                         type_spelling := "E" }] }
def exEnumCfg : Config := { excluded_enums := ["E"] }

/-- An excluded field. -/
def exField : FieldData :=
  { spelling := "v", qualified_name := "S::v", parent_qualified_name := "S",
    type := exIntTy }

/-- An exclusion configuration covering several kinds at once. -/
def exExclCfg : Config :=
  { excluded_enums := ["E"], excluded_functions := ["f", "C::M", "C::C"],
    excluded_fields := ["S::v"], excluded_classes := ["P"] }

/-- Traversal scenario: a class `K` and two typedefs `T1`, `T2`, all in
module `ModA` and all with canonical spelling `S`. -/
def exTravCfg : TravConfig :=
  { cfg := { available_mods := ["ModA"],
             available_incs := ["ModA_K.hxx", "ModA_T.hxx"] } }
def exNodeK : TravNode :=
  .mk { kind := TKind.classDecl, spelling := "K", filename := some "ModA_K.hxx",
        qualified_name := "K", canonical_spelling := "S", python_name := "K" } []
def exNodeT1 : TravNode :=
  .mk { kind := TKind.typedefDecl, spelling := "T1", filename := some "ModA_T.hxx",
        qualified_name := "T1", canonical_spelling := "S", python_name := "T1" } []
def exNodeT2 : TravNode :=
  .mk { kind := TKind.typedefDecl, spelling := "T2", filename := some "ModA_T.hxx",
        qualified_name := "T2", canonical_spelling := "S", python_name := "T2" } []

/-- The typedef `T2` as seen by `generate_typedef2` after the traversal
above: its alias is the class `K` of the same module. -/
def exTypedefT2 : TypedefData :=
  { spelling := "T2", python_name := "T2", module_name := "ModA",
    alias_target := some { python_name := "K", module_name := "ModA" } }

/-- Derived `BEq TKind` agrees with equality. -/
instance : LawfulBEq TKind where
  eq_of_beq := by intro a b h; cases a <;> cases b <;>
    first
      | rfl
      | exact absurd h (by decide)
  rfl := by intro a; cases a <;> decide


/-- The alias recorded for `T2` by the traversal scenario above. -/
def exAliasK : AliasInfo := { python_name := "K", module_name := "ModA" }


/-! ## Shared lemmas -/

lemma dependent_dfs_sound (available : List String) (mods : List PyModule)
    (target : String) :
    ∀ (fuel : Nat) (visited stack : List String),
      dependent_dfs available mods target fuel visited stack = true →
      ∃ s ∈ stack, Relation.ReflTransGen (impEdge available mods) s target := by
  intro fuel
  induction fuel with
  | zero =>
    intro visited stack h
    cases stack with
    | nil => simp [dependent_dfs] at h
    | cons n rest => simp [dependent_dfs] at h
  | succ fuel ih =>
    intro visited stack h
    cases stack with
    | nil => simp [dependent_dfs] at h
    | cons n rest =>
      rw [dependent_dfs] at h
      split at h
      · obtain ⟨s, hs, hr⟩ := ih visited rest h
        exact ⟨s, List.mem_cons_of_mem n hs, hr⟩
      · split at h
        · rename_i hne htg
          have : n = target := by simpa using htg
          exact ⟨n, List.mem_cons_self n rest, by rw [this]⟩
        · split at h
          · exact absurd h (by simp)
          · rename_i hne htg m hm
            obtain ⟨s, hs, hr⟩ := ih (n :: visited) (m.imports ++ rest) h
            rcases List.mem_append.mp hs with hsi | hsr
            · refine ⟨n, List.mem_cons_self n rest, ?_⟩
              exact Relation.ReflTransGen.head ⟨m, hm, hsi⟩ hr
            · exact ⟨s, List.mem_cons_of_mem n hsr, hr⟩

lemma contains_eq_false_iff (l : List String) (a : String) :
    l.contains a = false ↔ a ∉ l := by
  simp

lemma contains_cons_ne (l : List String) (a b : String) (h : b ≠ a) :
    (a :: l).contains b = l.contains b := by
  have hb : (b == a) = false := by simpa using h
  simp only [List.contains_cons, hb, Bool.false_or]

lemma filter_visit_congr (xs : List PyModule) (n : String)
    (visited : List String) (hx : ∀ y ∈ xs, y.name ≠ n) :
    xs.filter (fun x => !((n :: visited).contains x.name)) =
      xs.filter (fun x => !(visited.contains x.name)) := by
  apply List.filter_congr
  intro y hy
  rw [contains_cons_ne _ _ _ (hx y hy)]

lemma sum_filter_visit (mods : List PyModule) (n : String)
    (visited : List String)
    (hnd : (mods.map (fun m => m.name)).Nodup)
    (hnv : visited.contains n = false) :
    ∀ m ∈ mods, m.name = n →
      (((mods.filter (fun x => !((n :: visited).contains x.name))).map
          (fun m => m.imports.length)).sum + m.imports.length =
       ((mods.filter (fun x => !(visited.contains x.name))).map
          (fun m => m.imports.length)).sum) := by
  induction mods with
  | nil => intro m hm; cases hm
  | cons x xs ih =>
    intro m hm hname
    rw [List.map_cons, List.nodup_cons] at hnd
    rcases List.mem_cons.mp hm with rfl | hmxs
    · have hxs : ∀ y ∈ xs, y.name ≠ n := by
        intro y hy hc
        exact hnd.1 (hname ▸ hc ▸ List.mem_map_of_mem (fun m => m.name) hy)
      have hc1 : ((n :: visited).contains m.name) = true := by
        simp [List.contains_cons, hname]
      rw [List.filter_cons, List.filter_cons, hc1, hname, hnv]
      simp only [Bool.not_true, Bool.not_false, Bool.false_eq_true, if_false,
        if_true, List.map_cons, List.sum_cons]
      rw [filter_visit_congr xs n visited hxs]
      omega
    · have hxname : x.name ≠ n := by
        intro hc
        exact hnd.1 (hc ▸ hname ▸ List.mem_map_of_mem (fun m => m.name) hmxs)
      rw [List.filter_cons, List.filter_cons,
        contains_cons_ne visited n x.name hxname]
      have hrec := ih hnd.2 m hmxs hname
      cases hv : visited.contains x.name
      · simp only [hv, Bool.not_false, if_true, List.map_cons, List.sum_cons]
        omega
      · simp only [hv, Bool.not_true, Bool.false_eq_true, if_false]
        omega

lemma get_module_mem (available : List String) (mods : List PyModule)
    (hnd : (mods.map (fun m => m.name)).Nodup)
    (A : PyModule) (hA : A ∈ mods)
    (hav : available.contains A.name = true) :
    get_module available mods A.name = some A := by
  unfold get_module
  rw [if_pos hav]
  congr 1
  induction mods with
  | nil => cases hA
  | cons x xs ih =>
    rw [List.map_cons, List.nodup_cons] at hnd
    rcases List.mem_cons.mp hA with rfl | hAxs
    · simp [List.find?_cons]
    · have hxa : (x.name == A.name) = false := by
        simp only [beq_eq_false_iff_ne, ne_eq]
        intro hc
        exact hnd.1 (hc ▸ List.mem_map_of_mem (fun m => m.name) hAxs)
      rw [List.find?_cons]
      simp only [hxa, Bool.false_eq_true, if_false]
      exact ih hnd.2 hAxs

lemma dfs_trapped (available : List String) (mods : List PyModule)
    (visited stack : List String) (target : String)
    (hedge : ∀ v ∈ visited, ∀ y, impEdge available mods v y →
      y ∈ visited ∨ y ∈ stack)
    (htarget : target ∉ visited) :
    ∀ s, Relation.ReflTransGen (impEdge available mods) s target →
      s ∈ visited →
      ∃ y ∈ stack, y ∉ visited ∧
        Relation.ReflTransGen (impEdge available mods) y target := by
  intro s hrtg
  induction hrtg using Relation.ReflTransGen.head_induction_on with
  | refl => intro hmem; exact absurd hmem htarget
  | head hstep htail ih =>
    rename_i u v
    intro hu
    by_cases hv : v ∈ visited
    · exact ih hv
    · rcases hedge u hu v hstep with h | h
      · exact absurd h hv
      · exact ⟨v, h, hv, htail⟩

lemma dependent_dfs_complete (available : List String) (mods : List PyModule)
    (target : String)
    (hclosed : RegistryClosed available mods)
    (hnd : (mods.map (fun m => m.name)).Nodup) :
    ∀ (fuel : Nat) (visited stack : List String),
      dfs_budget mods visited stack < fuel →
      (∀ s ∈ stack, available.contains s = true) →
      target ∉ visited →
      (∀ v ∈ visited, ∀ y, impEdge available mods v y →
        y ∈ visited ∨ y ∈ stack) →
      (∃ s ∈ stack, Relation.ReflTransGen (impEdge available mods) s target) →
      dependent_dfs available mods target fuel visited stack = true := by
  intro fuel
  induction fuel with
  | zero => intro visited stack hb; omega
  | succ fuel ih =>
    intro visited stack hb havail htarget hedge hreach
    cases stack with
    | nil =>
      obtain ⟨s, hs, _⟩ := hreach
      cases hs
    | cons n rest =>
      rw [dependent_dfs]
      by_cases hv : visited.contains n = true
      · rw [if_pos hv]
        have hnv : n ∈ visited := by simpa using hv
        refine ih visited rest ?_ ?_ htarget ?_ ?_
        · simp only [dfs_budget, List.length_cons] at hb ⊢
          omega
        · exact fun s hs => havail s (List.mem_cons_of_mem n hs)
        · intro v hvm y hy
          rcases hedge v hvm y hy with h | h
          · exact Or.inl h
          · rcases List.mem_cons.mp h with rfl | h2
            · exact Or.inl hnv
            · exact Or.inr h2
        · obtain ⟨s, hs, hr⟩ := hreach
          rcases List.mem_cons.mp hs with rfl | h2
          · obtain ⟨y, hy, hynv, hyr⟩ :=
              dfs_trapped available mods visited (s :: rest) target hedge
                htarget s hr hnv
            rcases List.mem_cons.mp hy with rfl | h3
            · exact absurd hnv hynv
            · exact ⟨y, h3, hyr⟩
          · exact ⟨s, h2, hr⟩
      · rw [if_neg hv]
        by_cases ht : (n == target) = true
        · rw [if_pos ht]
        · rw [if_neg ht]
          have hnavail : available.contains n = true :=
            havail n (List.mem_cons_self n rest)
          have hnmem : ¬n ∈ visited := by
            intro hc
            exact hv (by simpa using hc)
          have hntarget : n ≠ target := by simpa using ht
          cases hfind : mods.find? (fun x => x.name == n) with
          | some m0 =>
            have hgm : get_module available mods n = some m0 := by
              unfold get_module
              rw [if_pos hnavail, hfind]
              rfl
            rw [hgm]
            have hm0mem : m0 ∈ mods := List.mem_of_find?_eq_some hfind
            have hm0name : m0.name = n := by
              have := List.find?_some hfind
              simpa using this
            refine ih (n :: visited) (m0.imports ++ rest) ?_ ?_ ?_ ?_ ?_
            · have hsum := sum_filter_visit mods n visited hnd
                (by simpa using hnmem) m0 hm0mem hm0name
              simp only [dfs_budget, List.length_cons, List.length_append]
                at hb ⊢
              omega
            · intro s hs
              rcases List.mem_append.mp hs with h | h
              · exact hclosed m0 hm0mem s h
              · exact havail s (List.mem_cons_of_mem n h)
            · intro hc
              rcases List.mem_cons.mp hc with rfl | h
              · exact hntarget rfl
              · exact htarget h
            · intro v hvm y hy
              rcases List.mem_cons.mp hvm with rfl | hvold
              · obtain ⟨m1, hm1, hym⟩ := hy
                rw [hgm] at hm1
                injection hm1 with hm1
                subst hm1
                exact Or.inr (List.mem_append_left rest hym)
              · rcases hedge v hvold y hy with h | h
                · exact Or.inl (List.mem_cons_of_mem n h)
                · rcases List.mem_cons.mp h with rfl | h2
                  · exact Or.inl (List.mem_cons_self y visited)
                  · exact Or.inr (List.mem_append_right m0.imports h2)
            · obtain ⟨s, hs, hr⟩ := hreach
              rcases List.mem_cons.mp hs with rfl | h2
              · rcases (Relation.ReflTransGen.cases_head hr) with rfl | hstep
                · exact absurd rfl hntarget
                · obtain ⟨y, hy, hyr⟩ := hstep
                  obtain ⟨m1, hm1, hym⟩ := hy
                  rw [hgm] at hm1
                  injection hm1 with hm1
                  subst hm1
                  exact ⟨y, List.mem_append_left rest hym, hyr⟩
              · exact ⟨s, List.mem_append_right m0.imports h2, hr⟩
          | none =>
            have hgm : get_module available mods n =
                some { name := n } := by
              unfold get_module
              rw [if_pos hnavail, hfind]
              rfl
            rw [hgm]
            have hfresh : ({ name := n } : PyModule).imports = [] := rfl
            have hnone : ∀ x ∈ mods, x.name ≠ n := by
              intro x hx hc
              have := List.find?_eq_none.mp hfind x hx
              simp [hc] at this
            refine ih (n :: visited) (({ name := n } : PyModule).imports ++ rest)
              ?_ ?_ ?_ ?_ ?_
            · have hfc := filter_visit_congr mods n visited hnone
              simp only [dfs_budget, List.length_cons, hfresh,
                List.nil_append, hfc] at hb ⊢
              omega
            · intro s hs
              rw [hfresh, List.nil_append] at hs
              exact havail s (List.mem_cons_of_mem n hs)
            · intro hc
              rcases List.mem_cons.mp hc with rfl | h
              · exact hntarget rfl
              · exact htarget h
            · intro v hvm y hy
              rcases List.mem_cons.mp hvm with rfl | hvold
              · obtain ⟨m1, hm1, hym⟩ := hy
                rw [hgm] at hm1
                injection hm1 with hm1
                subst hm1
                rw [hfresh] at hym
                cases hym
              · rcases hedge v hvold y hy with h | h
                · exact Or.inl (List.mem_cons_of_mem n h)
                · rcases List.mem_cons.mp h with rfl | h2
                  · exact Or.inl (List.mem_cons_self y visited)
                  · exact Or.inr (by rw [hfresh, List.nil_append]; exact h2)
            · obtain ⟨s, hs, hr⟩ := hreach
              rcases List.mem_cons.mp hs with rfl | h2
              · rcases (Relation.ReflTransGen.cases_head hr) with rfl | hstep
                · exact absurd rfl hntarget
                · obtain ⟨y, hy, hyr⟩ := hstep
                  obtain ⟨m1, hm1, hym⟩ := hy
                  rw [hgm] at hm1
                  injection hm1 with hm1
                  subst hm1
                  rw [hfresh] at hym
                  cases hym
              · exact ⟨s, by rw [hfresh, List.nil_append]; exact h2, hr⟩

lemma is_dependent_iff (available : List String) (mods : List PyModule)
    (hclosed : RegistryClosed available mods)
    (hnd : (mods.map (fun m => m.name)).Nodup)
    (A B : PyModule) (hA : A ∈ mods) :
    PyModule.is_dependent available mods A B = true ↔
      ∃ s ∈ A.imports,
        Relation.ReflTransGen (impEdge available mods) s B.name := by
  unfold PyModule.is_dependent
  constructor
  · intro h
    split at h
    · cases h
    · exact dependent_dfs_sound available mods B.name _ [] A.imports h
  · rintro ⟨s, hs, hr⟩
    have hne : A.imports ≠ [] := List.ne_nil_of_mem hs
    have hemp : A.imports.isEmpty = false := by
      cases himp : A.imports.isEmpty
      · rfl
      · exact absurd (List.isEmpty_iff.mp himp) hne
    rw [hemp, Bool.false_and, if_neg (by simp)]
    have hfilter :
        mods.filter (fun x => !(([] : List String).contains x.name)) = mods := by
      simp
    refine dependent_dfs_complete available mods B.name hclosed hnd _ []
      A.imports ?_ ?_ ?_ ?_ ⟨s, hs, hr⟩
    · simp only [dfs_budget, hfilter]
      omega
    · exact fun t ht => hclosed A hA t ht
    · simp
    · intro v hv
      cases hv

lemma transImport_iff (available : List String) (mods : List PyModule)
    (hnd : (mods.map (fun m => m.name)).Nodup)
    (A : PyModule) (hA : A ∈ mods)
    (havA : available.contains A.name = true) (t : String) :
    TransImport available mods A.name t ↔
      ∃ s ∈ A.imports,
        Relation.ReflTransGen (impEdge available mods) s t := by
  unfold TransImport
  rw [Relation.TransGen.head'_iff]
  have hgm : get_module available mods A.name = some A :=
    get_module_mem available mods hnd A hA havA
  constructor
  · rintro ⟨b, ⟨m, hm, hb⟩, hr⟩
    rw [hgm] at hm
    injection hm with hm
    subst hm
    exact ⟨b, hb, hr⟩
  · rintro ⟨b, hb, hr⟩
    exact ⟨b, ⟨A, hgm, hb⟩, hr⟩


lemma alookup_aset {α : Type} (m : List (String × α)) (k : String) (v : α)
    (s : String) :
    alookup (aset m k v) s =
      if (k == s) = true then some v else alookup m s := by
  unfold alookup aset
  by_cases hpre : (m.find? (fun p => p.1 == k)).isSome
  · simp only [hpre, if_true, List.find?_map]
    by_cases hks : (k == s) = true
    · have hk : k = s := by simpa using hks
      subst hk
      have hfun :
          ((fun p : String × α => p.1 == k) ∘
            fun p => if p.1 == k then (k, v) else p) =
          (fun p : String × α => p.1 == k) := by
        funext p
        by_cases hp : (p.1 == k) = true
        · simp [Function.comp, hp]
        · simp [Function.comp, hp]
      rw [hfun]
      obtain ⟨q, hq⟩ := Option.isSome_iff_exists.mp hpre
      have hqk := List.find?_some hq
      simp only [] at hqk
      have hqk2 : q.1 = k := by simpa using hqk
      simp [hq, hqk, hqk2]
    · have hfun :
          ((fun p : String × α => p.1 == s) ∘
            fun p => if p.1 == k then (k, v) else p) =
          (fun p : String × α => p.1 == s) := by
        funext p
        by_cases hp : (p.1 == k) = true
        · have : p.1 = k := by simpa using hp
          simp [Function.comp, hp, this, hks]
        · simp [Function.comp, hp]
      rw [hfun]
      simp only [hks, if_false]
      cases hfind : m.find? (fun p : String × α => p.1 == s) with
      | none => simp
      | some q =>
        have hqs := List.find?_some hfind
        simp only [] at hqs
        have hqk : (q.1 == k) = false := by
          by_contra hc
          have : (q.1 == k) = true := by
            cases h : (q.1 == k) with
            | false => exact absurd h hc
            | true => rfl
          have hqk2 : q.1 = k := by simpa using this
          have hqs2 : q.1 = s := by simpa using hqs
          exact hks (by simp [← hqk2, hqs2])
        have hqk2 : ¬(q.1 = k) := by simpa using hqk
        simp [hqk, hqk2]
  · simp only [hpre, if_false, Bool.false_eq_true, List.find?_append]
    by_cases hks : (k == s) = true
    · have hk : k = s := by simpa using hks
      have hnone : m.find? (fun p : String × α => p.1 == s) = none := by
        rw [← hk]
        exact Option.not_isSome_iff_eq_none.mp hpre
      simp [hnone, hks]
    · simp [hks]

lemma mod_update_canonical (st : TravState) (n : String) (f : ModLists → ModLists) :
    (mod_update st n f).canonical_types = st.canonical_types := by
  unfold mod_update
  split <;> rfl

lemma mod_update_trace (st : TravState) (n : String) (f : ModLists → ModLists) :
    (mod_update st n f).trace = st.trace := by
  unfold mod_update
  split <;> rfl

lemma aliasTarget_append_class (tr : List TypesEntry) (e : TypesEntry)
    (s : String) (hk : e.data.kind = TKind.classDecl) :
    aliasTarget (tr ++ [e]) s =
      if (e.data.canonical_spelling == s) = true then some e.data
      else aliasTarget tr s := by
  have h1 : (e.data.kind == TKind.classDecl) = true := by rw [hk]; decide
  have h2 : (e.data.kind == TKind.typedefDecl) = false := by rw [hk]; decide
  unfold aliasTarget
  rw [List.filter_append, List.find?_append]
  by_cases hs : (e.data.canonical_spelling == s) = true
  · have hfe : [e].filter
        (fun x => x.data.kind == TKind.classDecl &&
          x.data.canonical_spelling == s) = [e] := by
      simp [List.filter_cons, h1, hs]
    rw [hfe, List.getLast?_concat]
    simp [hs]
  · have hfe : [e].filter
        (fun x => x.data.kind == TKind.classDecl &&
          x.data.canonical_spelling == s) = [] := by
      simp [List.filter_cons, hs]
    have hnf : [e].find?
        (fun x => x.data.kind == TKind.typedefDecl &&
          x.data.canonical_spelling == s) = none := by
      simp [List.find?_cons, h2]
    rw [hfe, hnf, List.append_nil, Option.or_none]
    simp [hs]

lemma aliasTarget_append_typedef (tr : List TypesEntry) (e : TypesEntry)
    (s : String) (hk : e.data.kind = TKind.typedefDecl) :
    aliasTarget (tr ++ [e]) s =
      if (e.data.canonical_spelling == s) = true then
        (aliasTarget tr s).or (some e.data)
      else aliasTarget tr s := by
  have h1 : (e.data.kind == TKind.classDecl) = false := by rw [hk]; decide
  have h2 : (e.data.kind == TKind.typedefDecl) = true := by rw [hk]; decide
  unfold aliasTarget
  rw [List.filter_append, List.find?_append]
  have hfe : [e].filter
      (fun x => x.data.kind == TKind.classDecl &&
        x.data.canonical_spelling == s) = [] := by
    simp [List.filter_cons, h1]
  rw [hfe, List.append_nil]
  by_cases hs : (e.data.canonical_spelling == s) = true
  · have hnf : [e].find?
        (fun x => x.data.kind == TKind.typedefDecl &&
          x.data.canonical_spelling == s) = some e := by
      simp [List.find?_cons, h2, hs]
    rw [hnf]
    cases hlast : (tr.filter (fun x =>
        x.data.kind == TKind.classDecl &&
          x.data.canonical_spelling == s)).getLast? with
    | some x => simp [hlast, hs]
    | none =>
      cases hfind : tr.find? (fun x =>
          x.data.kind == TKind.typedefDecl &&
            x.data.canonical_spelling == s) with
      | some t => simp [hlast, hfind, hs]
      | none => simp [hlast, hfind, hs]
  · have hnf : [e].find?
        (fun x => x.data.kind == TKind.typedefDecl &&
          x.data.canonical_spelling == s) = none := by
      simp [List.find?_cons, hs]
    rw [hnf, Option.or_none]
    simp [hs]

/-- Appending one entry to the trace preserves the per-entry alias
condition, given the condition for the new entry. -/
lemma traceinv2_append (tr : List TypesEntry) (e : TypesEntry)
    (h2 : ∀ n (h : n < tr.length),
      (tr.get ⟨n, h⟩).data.kind = TKind.typedefDecl →
      (tr.get ⟨n, h⟩).alias_target =
        aliasTarget (tr.take n) (tr.get ⟨n, h⟩).data.canonical_spelling)
    (he : e.data.kind = TKind.typedefDecl →
      e.alias_target = aliasTarget tr e.data.canonical_spelling) :
    ∀ n (h : n < (tr ++ [e]).length),
      ((tr ++ [e]).get ⟨n, h⟩).data.kind = TKind.typedefDecl →
      ((tr ++ [e]).get ⟨n, h⟩).alias_target =
        aliasTarget ((tr ++ [e]).take n)
          ((tr ++ [e]).get ⟨n, h⟩).data.canonical_spelling := by
  intro n hlt hkind
  rcases Nat.lt_or_ge n tr.length with hn | hn
  · have hget : (tr ++ [e]).get ⟨n, hlt⟩ = tr.get ⟨n, hn⟩ := by
      rw [List.get_eq_getElem, List.get_eq_getElem]
      exact List.getElem_append_left hn
    have htake : (tr ++ [e]).take n = tr.take n :=
      List.take_append_of_le_length (Nat.le_of_lt hn)
    rw [hget] at hkind
    rw [hget, htake]
    exact h2 n hn hkind
  · have hlen : (tr ++ [e]).length = tr.length + 1 := by simp
    have hn' : n = tr.length := by omega
    subst hn'
    have hget : (tr ++ [e]).get ⟨tr.length, hlt⟩ = e := by
      rw [List.get_eq_getElem]
      simp
    have htake : (tr ++ [e]).take tr.length = tr := by
      rw [List.take_append_of_le_length (Nat.le_refl _), List.take_length]
    rw [hget] at hkind
    rw [hget, htake]
    exact he hkind

lemma traceinv_of_eq {st st2 : TravState}
    (hct : st.canonical_types = st2.canonical_types)
    (htr : st.trace = st2.trace) (h : TraceInv st2) : TraceInv st := by
  obtain ⟨c, m, t⟩ := st
  obtain ⟨c2, m2, t2⟩ := st2
  simp only at hct htr
  subst hct
  subst htr
  exact h

lemma trav_accept_inv (tc : TravConfig) (st : TravState)
    (mod_name qname : String) (d : TravData) (h : TraceInv st) :
    TraceInv (trav_accept tc st mod_name qname d) := by
  obtain ⟨h1, h2⟩ := h
  unfold trav_accept
  split
  · exact traceinv_of_eq (mod_update_canonical ..) (mod_update_trace ..) ⟨h1, h2⟩
  split
  · exact traceinv_of_eq (mod_update_canonical ..) (mod_update_trace ..) ⟨h1, h2⟩
  split
  · -- class declaration
    rename_i hcls
    have hdk : d.kind = TKind.classDecl := by simpa using hcls
    refine @traceinv_of_eq _
        { canonical_types := aset st.canonical_types d.canonical_spelling d,
          mods := st.mods,
          trace := st.trace ++
            [{ data := d,
               macro_info := alookup tc.available_macros qname }] }
      ?_ ?_ ?_
    · show aset (mod_update st mod_name _).canonical_types _ _ = _
      rw [mod_update_canonical]
    · show (mod_update st mod_name _).trace ++ _ = _
      rw [mod_update_trace]
    constructor
    · intro s
      show alookup (aset st.canonical_types d.canonical_spelling d) s =
        aliasTarget (st.trace ++
          [{ data := d, macro_info := alookup tc.available_macros qname }]) s
      rw [alookup_aset, aliasTarget_append_class _ _ _ hdk]
      by_cases hs : (d.canonical_spelling == s) = true
      · simp [hs]
      · simp [hs, h1 s]
    · show ∀ n hn, _
      refine traceinv2_append st.trace _ h2 ?_
      intro hcontra
      rw [hdk] at hcontra
      cases hcontra
  split
  · -- typedef declaration
    rename_i htd
    have hdk : d.kind = TKind.typedefDecl := by simpa using htd
    split
    · -- alias found
      rename_i a heq
      refine @traceinv_of_eq _
          { canonical_types := st.canonical_types,
            mods := st.mods,
            trace := st.trace ++ [{ data := d, alias_target := some a }] }
        ?_ ?_ ?_
      · show (mod_update st mod_name _).canonical_types = _
        rw [mod_update_canonical]
      · show (mod_update st mod_name _).trace ++ _ = _
        rw [mod_update_trace]
      constructor
      · intro s
        show alookup st.canonical_types s =
          aliasTarget (st.trace ++ [{ data := d, alias_target := some a }]) s
        rw [aliasTarget_append_typedef _ _ _ hdk]
        by_cases hs : (d.canonical_spelling == s) = true
        · have hseq : d.canonical_spelling = s := by simpa using hs
          have hval : aliasTarget st.trace s = some a := by
            rw [← h1 s, ← hseq]
            exact heq
          rw [hval, if_pos hs, h1 s, hval]
          rfl
        · simp [hs, h1 s]
      · show ∀ n hn, _
        refine traceinv2_append st.trace _ h2 ?_
        intro _
        show some a = aliasTarget st.trace d.canonical_spelling
        rw [← h1]
        exact heq.symm
    · -- no alias yet
      rename_i heq
      refine @traceinv_of_eq _
          { canonical_types := aset st.canonical_types d.canonical_spelling d,
            mods := st.mods,
            trace := st.trace ++ [{ data := d }] }
        ?_ ?_ ?_
      · show aset (mod_update st mod_name _).canonical_types _ _ = _
        rw [mod_update_canonical]
      · show (mod_update st mod_name _).trace ++ _ = _
        rw [mod_update_trace]
      constructor
      · intro s
        show alookup (aset st.canonical_types d.canonical_spelling d) s =
          aliasTarget (st.trace ++ [{ data := d }]) s
        rw [alookup_aset, aliasTarget_append_typedef _ _ _ hdk]
        by_cases hs : (d.canonical_spelling == s) = true
        · have hseq : d.canonical_spelling = s := by simpa using hs
          have hval : aliasTarget st.trace s = none := by
            rw [← h1 s, ← hseq]
            exact heq
          rw [hval, if_pos hs, if_pos hs]
          rfl
        · simp [hs, h1 s]
      · show ∀ n hn, _
        refine traceinv2_append st.trace _ h2 ?_
        intro _
        show none = aliasTarget st.trace d.canonical_spelling
        rw [← h1]
        exact heq.symm
  split
  · exact traceinv_of_eq (mod_update_canonical ..) (mod_update_trace ..) ⟨h1, h2⟩
  · exact ⟨h1, h2⟩

lemma foldl_preserve {α β : Type} (P : α → Prop) (f : α → β → α)
    (l : List β) (h : ∀ a b, b ∈ l → P a → P (f a b)) :
    ∀ a, P a → P (l.foldl f a) := by
  induction l with
  | nil => intro a ha; simpa using ha
  | cons x xs ih =>
    intro a ha
    rw [List.foldl_cons]
    exact ih (fun a b hb hp => h a b (List.mem_cons_of_mem x hb) hp)
      (f a x) (h a x (List.mem_cons_self x xs) ha)

set_option maxHeartbeats 1000000 in
lemma traverse_binder_inv (tc : TravConfig) :
    ∀ (n : TravNode) (st : TravState), TraceInv st →
      TraceInv (traverse_binder tc st n) := by
  have key : ∀ (k : Nat) (n : TravNode), sizeOf n < k →
      ∀ st, TraceInv st → TraceInv (traverse_binder tc st n) := by
    intro k
    induction k with
    | zero => intro n h; omega
    | succ k ih =>
      intro n hn st hst
      obtain ⟨d, children⟩ := n
      rw [traverse_binder]
      split
      · exact hst
      split
      · split
        · exact hst
        · refine foldl_preserve TraceInv _ _ ?_ st hst
          intro s x hx hs
          have hmem : x.1 ∈ children := x.2
          have hsz := List.sizeOf_lt_of_mem hmem
          have hk : sizeOf x.1 < k := by
            simp only [TravNode.mk.sizeOf_spec] at hn
            omega
          exact ih x.1 hk s hs
      split
      · exact hst
      split
      · exact hst
      split
      · exact hst
      split
      · exact hst
      split
      · exact hst
      dsimp only []
      repeat'
        first
          | exact hst
          | exact trav_accept_inv _ _ _ _ _ hst
          | split
  intro n st hst
  exact key (sizeOf n + 1) n (by omega) st hst

lemma traverse_tu_inv (tc : TravConfig) (roots : List TravNode) :
    TraceInv (traverse_tu tc roots) := by
  unfold traverse_tu
  refine foldl_preserve TraceInv _ _ ?_ {} ?_
  · intro s n _ hs
    exact traverse_binder_inv tc n s hs
  · constructor
    · intro s
      rfl
    · intro n hn
      simp at hn



theorem foldl_skip_append {α β : Type} (p : α → Bool) (g : α → List β) :
    ∀ (l : List α) (acc : List β),
      l.foldl (fun acc m => if p m then acc else acc ++ g m) acc
        = acc ++ (l.filter (fun m => !p m)).flatMap g := by
  intro l
  induction l with
  | nil => intro acc; simp
  | cons x xs ih =>
    intro acc
    by_cases h : p x = true <;> simp [List.foldl_cons, h, ih, List.append_assoc]

theorem foldl_append_flatMap {α β : Type} (g : α → List β) :
    ∀ (l : List α) (acc : List β),
      l.foldl (fun acc m => acc ++ g m) acc = acc ++ l.flatMap g := by
  intro l
  induction l with
  | nil => intro acc; simp
  | cons x xs ih => intro acc; simp [List.foldl_cons, ih, List.append_assoc]

theorem signature_foldl_le (cfg : Config) :
    ∀ (params : List ParamData) (s : FuncSig), s.ndefaults ≤ s.nargs →
      (params.foldl (signature_step cfg) s).ndefaults ≤
        (params.foldl (signature_step cfg) s).nargs := by
  intro params
  induction params with
  | nil => intro s hs; simpa using hs
  | cons a l ih =>
    intro s hs
    simp only [List.foldl_cons]
    apply ih
    simp only [signature_step]
    by_cases h : a.default_value != "" <;> simp [h] <;> omega

theorem ndefaults_le_nargs (cfg : Config) (params : List ParamData) :
    (function_signature cfg params).ndefaults ≤
      (function_signature cfg params).nargs := by
  unfold function_signature
  exact signature_foldl_le cfg params {} (by simp)

theorem pyRange_length (a b : Nat) : (pyRange a b).length = b - a := by
  simp [pyRange]

theorem data_append (a b : String) : (a ++ b).data = a.data ++ b.data := rfl

/-! ## C6 -/

/-- C6: `overwrite_if_changed` writes exactly when the file is absent or
the hashes differ, so a second run with the same content changes nothing
and performs no write. -/
theorem overwrite_if_changed_idempotent (hash : String → String)
    (fs : String → Option String) (path data : String) :
    ((overwrite_if_changed hash (overwrite_if_changed hash fs path data).1 path
        data).1 = (overwrite_if_changed hash fs path data).1) ∧
    ((overwrite_if_changed hash (overwrite_if_changed hash fs path data).1 path
        data).2 = false) ∧
    ((overwrite_if_changed hash fs path data).2 =
      match fs path with
      | some old => !(hash data == hash old)
      | none => true) := by
  unfold overwrite_if_changed
  cases h : fs path with
  | none => simp [h]
  | some old =>
    by_cases hh : hash data == hash old
    · simp [h, hh]
    · simp [h, hh]

/-! ## C10 -/

/-- C10: `Generator.bind` generates files only for the modules whose
name is not excluded, while `Generator.bind_templates` processes every
module, so the class-template binding files of an excluded module are
still written. -/
theorem bind_excluded_modules (cfg : Config) (path : String)
    (mods : List PyModule) :
    Generator.bind cfg path mods =
      (mods.filter (fun m => !PyModule.is_excluded cfg m)).flatMap
        (PyModule.bind_files cfg path) ∧
    Generator.bind_templates path mods =
      mods.flatMap (PyModule.template_files path) ∧
    (∀ m ∈ mods, PyModule.is_excluded cfg m = true →
      ∀ f ∈ PyModule.template_files path m, f ∈ Generator.bind_templates path mods) := by
  refine ⟨?_, ?_, ?_⟩
  · simpa using foldl_skip_append (PyModule.is_excluded cfg)
      (PyModule.bind_files cfg path) mods []
  · simpa using foldl_append_flatMap (PyModule.template_files path) mods []
  · intro m hm _ f hf
    have h2 : Generator.bind_templates path mods =
        mods.flatMap (PyModule.template_files path) := by
      simpa using foldl_append_flatMap (PyModule.template_files path) mods []
    rw [h2]
    exact List.mem_flatMap.mpr ⟨m, hm, hf⟩

/-- Witness for C10 at a concrete registry: the module `X` is excluded,
yet its template file is written by `bind_templates` and its own source
file does not appear in `bind`'s output. -/
theorem bind_excluded_modules_witness :
    ("out/bind_TTempl.hxx" ∈ Generator.bind_templates "out" [exModX]) ∧
    Generator.bind exBindCfg "out" [exModX] = [] := by
  have h := bind_excluded_modules exBindCfg "out" [exModX]
  constructor
  · exact h.2.2 exModX (by decide) (by decide) "out/bind_TTempl.hxx" (by decide)
  · rw [h.1]; decide

/-! ## C1 -/

/-- C1 (amended): constructors emit exactly D+1 overload bindings, one
per argument count from N−D to N; methods do the same unless they need
the immutable in/out adapter, in which case a single adapter binding is
emitted; free functions always emit a single binding, carrying defaults
as `py::arg` annotations instead of overloads. -/
theorem overload_cardinality_amended (cfg : Config) (pn : String) (c : CtorData)
    (m mio : MethodData) (f : FunctionData)
    (hm : m.needs_inout_method cfg = false)
    (hio : mio.needs_inout_method cfg = true) :
    (generate_ctor cfg pn c).length =
      (function_signature cfg c.parameters).ndefaults + 1 ∧
    (∀ k (hk : k < (generate_ctor cfg pn c).length),
      (generate_ctor cfg pn c).get ⟨k, hk⟩ =
        ctor_overload_src cfg pn c (function_signature cfg c.parameters)
          ((function_signature cfg c.parameters).nargs -
            (function_signature cfg c.parameters).ndefaults + k)) ∧
    (generate_method cfg pn m).length =
      (function_signature cfg m.parameters).ndefaults + 1 ∧
    (generate_method cfg pn mio).length = 1 ∧
    (generate_function cfg f).length = 1 := by
  have hle := ndefaults_le_nargs cfg c.parameters
  have hlem := ndefaults_le_nargs cfg m.parameters
  refine ⟨?_, ?_, ?_, ?_, ?_⟩
  · simp only [generate_ctor, List.length_map, pyRange_length]
    omega
  · intro k hk
    simp only [generate_ctor, List.get_eq_getElem, List.getElem_map, pyRange]
    congr 1
    rw [List.getElem_range']
    ring
  · simp only [generate_method, hio, hm, Bool.false_eq_true, if_false,
      List.length_map, pyRange_length]
    omega
  · simp only [generate_method, hio, if_true]
    split <;> simp
  · simp only [generate_function]
    split <;> simp

/-- Witness for C1 (amended) at concrete declarations: a constructor
and a method with one defaulted parameter each produce two bindings, an
in/out method with a defaulted parameter produces one, and a free
function with a defaulted parameter produces one. -/
theorem overload_cardinality_amended_witness :
    (generate_ctor exInoutCfg "cls_C" exCtor).length = 2 ∧
    (generate_method exInoutCfg "cls_C" exMethod).length = 2 ∧
    (generate_method exInoutCfg "cls_C" exInoutMethod).length = 1 ∧
    (generate_function exInoutCfg exDefFn).length = 1 := by
  have h := overload_cardinality_amended exInoutCfg "cls_C" exCtor exMethod
    exInoutMethod exDefFn (by decide) (by decide)
  refine ⟨?_, ?_, h.2.2.2.1, h.2.2.2.2⟩
  · rw [h.1]; decide
  · rw [h.2.2.1]; decide

/-- Counterexample to C1 as stated: the free function
`void f(int x = 5)` has N = 1 parameters with D = 1 defaults, so the
claim demands D+1 = 2 overload bindings, but `generate_function` emits
exactly one; likewise the in/out method `void C::Get(int &x = 3)` gets
a single adapter binding instead of two overloads. -/
theorem overload_cardinality_counterexample :
    (function_signature {} exDefFn.parameters).ndefaults = 1 ∧
    (generate_function {} exDefFn).length = 1 ∧
    (function_signature exInoutCfg exInoutMethod.parameters).ndefaults = 1 ∧
    (generate_method exInoutCfg "cls_C" exInoutMethod).length = 1 := by
  decide

/-! ## C9 -/

/-- C9: the `check_circular` pair enumeration slices the inner loop as
`mods[i+1:-1]`, so no examined pair involves the final module of the
registry (confirming the off-by-one the spec flags). -/
theorem check_circular_excludes_last (mods : List PyModule) (h : mods ≠ [])
    (hnd : (mods.map PyModule.name).Nodup)
    (p : PyModule × PyModule) (hp : p ∈ check_circular_pairs mods) :
    p.1 ≠ mods.getLast h ∧ p.2 ≠ mods.getLast h := by
  have hN : 0 < mods.length := List.length_pos.mpr h
  rw [List.getLast_eq_getElem]
  simp only [check_circular_pairs, List.mem_flatMap] at hp
  obtain ⟨q, hq, hpq⟩ := hp
  obtain ⟨hqlt, hqval⟩ := List.mem_enum hq
  simp only [List.mem_map] at hpq
  obtain ⟨m2, hm2, hpeq⟩ := hpq
  rw [List.dropLast_eq_take] at hm2
  obtain ⟨j, hj, hjval⟩ := List.mem_iff_getElem.mp hm2
  have hjlen : j < mods.length - (q.1 + 1) - 1 := by
    have := hj
    simp only [List.length_take, List.length_drop] at this
    omega
  rw [List.getElem_take, List.getElem_drop] at hjval
  -- the examined second component sits at index q.1 + 1 + j ≤ length - 2
  have hidx : q.1 + 1 + j < mods.length - 1 := by omega
  have hne : ∀ (i : Nat) (hi : i < mods.length), i ≠ mods.length - 1 →
      mods[i] ≠ mods[mods.length - 1] := by
    intro i hi hne heq
    have hilt : i < (mods.map PyModule.name).length := by simpa using hi
    have hllt : mods.length - 1 < (mods.map PyModule.name).length := by
      simp only [List.length_map]
      omega
    have hmap : (mods.map PyModule.name).get ⟨i, hilt⟩ =
        (mods.map PyModule.name).get ⟨mods.length - 1, hllt⟩ := by
      simp only [List.get_eq_getElem, List.getElem_map]
      rw [heq]
    simp only [List.get_eq_getElem] at hmap
    exact hne ((hnd.getElem_inj_iff).mp hmap)
  constructor
  · have h1 : p.1 = mods[q.1] := by rw [← hpeq]; exact hqval
    rw [h1]
    exact hne q.1 hqlt (by omega)
  · have hq1j : q.1 + 1 + j < mods.length := by omega
    have h2 : p.2 = mods[q.1 + 1 + j] := by rw [← hpeq, ← hjval]
    rw [h2]
    exact hne (q.1 + 1 + j) hq1j (by omega)

/-- Witness for C9 on a three-module registry: the single examined pair
avoids the last module in both components. -/
theorem check_circular_excludes_last_witness :
    (exMod9A, exMod9B).1 ≠ [exMod9A, exMod9B, exMod9C].getLast (by decide) ∧
    (exMod9A, exMod9B).2 ≠ [exMod9A, exMod9B, exMod9C].getLast (by decide) :=
  check_circular_excludes_last [exMod9A, exMod9B, exMod9C] (by decide)
    (by decide) (exMod9A, exMod9B) (by decide)

/-! ## C3 -/

theorem process_config_go_shift (platform : String) :
    ∀ (ls : List String) (cfg : Config) (n : Nat),
      process_config_go platform cfg ls (n + 1)
        = ((process_config_go platform cfg ls n).1,
           (process_config_go platform cfg ls n).2.map
             (fun p => (p.1 + 1, p.2))) := by
  intro ls
  induction ls with
  | nil => intro cfg n; simp [process_config_go]
  | cons l ls ih =>
    intro cfg n
    simp only [process_config_go]
    cases hp : process_line platform cfg l with
    | ok c => simp only [ih]
    | error e => simp

/-- C3 (amended): when `process_config` fails it reports the 1-based
number of the offending line and stops there, and the resulting rule
tables are exactly those produced by the lines before the failing one —
earlier directives stay applied (the load is not transactional). -/
theorem process_config_error_line (platform : String) (cfg : Config)
    (lines : List String) (i : Nat) (msg : String)
    (h : (process_config platform cfg lines).2 = some (i, msg)) :
    1 ≤ i ∧ i ≤ lines.length ∧
    (process_config platform cfg (lines.take (i - 1))).2 = none ∧
    (process_config platform cfg lines).1 =
      (process_config platform cfg (lines.take (i - 1))).1 ∧
    ∃ l, lines[i - 1]? = some l ∧
      process_line platform (process_config platform cfg (lines.take (i - 1))).1
        l = Except.error msg := by
  induction lines generalizing cfg i with
  | nil => simp [process_config, process_config_go] at h
  | cons l ls ih =>
    rw [process_config, process_config_go] at h
    cases hp : process_line platform cfg l with
    | error e =>
      rw [hp] at h
      obtain ⟨hi, hmsg⟩ : i = 1 ∧ msg = e := by
        simpa using h.symm
      subst hi hmsg
      refine ⟨le_refl 1, by simp, by simp [process_config, process_config_go],
        ?_, l, by simp, ?_⟩
      · simp [process_config, process_config_go, hp]
      · simpa [process_config, process_config_go] using hp
    | ok c =>
      have hstep : ∀ (X : List String), process_config platform cfg (l :: X)
          = ((process_config platform c X).1,
             (process_config platform c X).2.map (fun p => (p.1 + 1, p.2))) := by
        intro X
        rw [process_config, process_config_go]
        simp only [hp, Nat.zero_add]
        rw [process_config_go_shift]
        rfl
      have h' : (process_config platform cfg (l :: ls)).2 = some (i, msg) := by
        rw [process_config]; exact h
      rw [hstep ls] at h'
      simp only at h'
      obtain ⟨⟨i0, msg0⟩, hr, heq⟩ := Option.map_eq_some'.mp h'
      simp only [Prod.mk.injEq] at heq
      obtain ⟨hieq, hmeq⟩ := heq
      subst hmeq
      obtain ⟨h1, h2, h3, h4, l', hl', hpl⟩ := ih c i0 hr
      obtain ⟨k, rfl⟩ : ∃ k, i0 = k + 1 := ⟨i0 - 1, by omega⟩
      subst hieq
      have htake : List.take (k + 1 + 1 - 1) (l :: ls) = l :: List.take k ls := by
        simp [List.take_succ_cons]
      refine ⟨by omega, by simp; omega, ?_, ?_, l', ?_, ?_⟩
      · rw [htake, hstep (List.take k ls)]
        simp only [Option.map_eq_none']
        simpa using h3
      · rw [htake, hstep (List.take k ls), hstep ls]
        simpa using h4
      · simpa using hl'
      · rw [htake, hstep (List.take k ls)]
        simpa using hpl

/-- Witness for C3 (amended) at a concrete configuration whose second
line fails to parse: the final tables equal those after the first line
alone, which itself processes cleanly. -/
theorem process_config_error_line_witness :
    (process_config "linux" initial_config ["-class Foo", "+sort bad"]).1 =
      (process_config "linux" initial_config ["-class Foo"]).1 ∧
    (process_config "linux" initial_config ["-class Foo"]).2 = none := by
  have h := process_config_error_line "linux" initial_config
    ["-class Foo", "+sort bad"] 2 "values to unpack" (by decide)
  exact ⟨by simpa using h.2.2.2.1, by simpa using h.2.2.1⟩

/-- Counterexample to C3 as stated: the load fails on line 2 (with the
1-based line number attached, as claimed), but the `-class Foo`
directive from line 1 has already been applied — the exclusion table is
not left in its pre-load state. -/
theorem process_config_partial_apply_counterexample :
    (process_config "linux" initial_config ["-class Foo", "+sort bad"]).2 =
      some (2, "values to unpack") ∧
    (process_config "linux" initial_config
      ["-class Foo", "+sort bad"]).1.excluded_classes = ["Foo"] ∧
    initial_config.excluded_classes = [] := by
  decide

/-! ## C8 -/


lemma ite_not_swap {α : Type} (t : Bool) (a b : α) :
    (if (!t) = true then a else b) = if t = true then b else a := by
  cases t <;> simp

lemma foldl_filter_map {α β : Type} (g : List β → α → List β)
    (keep : α → Bool) (f : α → β)
    (hg : ∀ acc x, g acc x = if keep x then acc ++ [f x] else acc) :
    ∀ (bs : List α) (acc : List β),
      bs.foldl g acc = acc ++ (bs.filter keep).map f := by
  intro bs
  induction bs with
  | nil => intro acc; simp
  | cons x xs ih =>
    intro acc
    rw [List.foldl_cons, hg]
    cases hx : keep x <;> simp [hx, ih, List.filter_cons]

theorem comment_append (a b : String) (h : ∃ u, a = "// " ++ u) :
    ∃ u, a ++ b = "// " ++ u := by
  obtain ⟨u, rfl⟩ := h
  exact ⟨u ++ b, by rw [String.append_assoc]⟩

theorem generate_class_mk (cfg : Config) (c : ClassCore) (ns : List ClassBinder) :
    generate_class cfg (ClassBinder.mk c ns) =
      generate_class_aux cfg c
        (ns.attach.map (fun x => (x.1.core, generate_class cfg x.1))) := by
  rw [generate_class]

theorem comment_of_data (s : String) (h : ("// ".data) <+: s.data) :
    ∃ u, s = "// " ++ u := by
  obtain ⟨rest, hrest⟩ := h
  refine ⟨String.mk rest, ?_⟩
  apply String.ext
  rw [data_append, ← hrest]

theorem prefix_extend {p : List Char} (a b : List Char) (h : p <+: a) :
    p <+: a ++ b :=
  h.trans (List.prefix_append a b)

theorem comment_ite (c : Prop) [Decidable c] (a b : String)
    (ha : ∃ u, a = "// " ++ u) (hb : ∃ u, b = "// " ++ u) :
    ∃ u, (if c then a else b) = "// " ++ u := by
  split
  · exact ha
  · exact hb

set_option maxHeartbeats 1000000 in
theorem generate_class_aux_excluded (cfg : Config) (c : ClassCore)
    (nr : List (ClassCore × List String)) (hmac : c.macro_info = none)
    (hch : c.has_any_child = true) (hx : c.is_excluded cfg = true) :
    ∃ mid, generate_class_aux cfg c nr = "/*\n" :: mid ++ ["*/\n"] := by
  simp only [generate_class_aux, hmac, hch, hx, Bool.not_true, if_true]
  exact ⟨_, rfl⟩

set_option maxHeartbeats 1000000 in
theorem method_overload_src_comment (sig : FuncSig) (pn : String)
    (is_static fname rtype ptr is_const qname iop docs rp ka cg : String)
    (i : Nat) :
    ∃ u, method_overload_src sig ("// excluded // " ++ pn) is_static fname rtype
      ptr is_const qname iop docs rp ka cg i = "// " ++ u := by
  cases hq : (is_static == "") with
  | false =>
    simp only [method_overload_src, bne, hq, Bool.not_false, reduceIte]
    split <;> split_ifs <;>
      first
        | contradiction
        | (apply comment_of_data;
           simp only [data_append, List.append_assoc];
           (try apply prefix_extend); decide)
  | true =>
    simp only [method_overload_src, bne, hq, Bool.not_true, reduceIte]
    split <;> split_ifs <;>
      first
        | contradiction
        | (apply comment_of_data;
           simp only [data_append, List.append_assoc];
           (try apply prefix_extend); decide)


set_option maxHeartbeats 1000000 in
theorem generate_method_excluded (cfg : Config) (pn : String) (m : MethodData)
    (hm : m.is_excluded cfg = true) :
    ∀ l ∈ generate_method cfg pn m, ∃ u, l = "// " ++ u := by
  intro l hl
  simp only [generate_method, hm, if_true] at hl
  split at hl
  · split at hl <;> (simp only [List.mem_singleton] at hl; subst hl) <;>
      (apply comment_of_data;
        simp only [data_append, List.append_assoc];
        (try apply prefix_extend); decide)
  · rw [List.mem_map] at hl
    obtain ⟨i, _, rfl⟩ := hl
    exact method_overload_src_comment _ _ _ _ _ _ _ _ _ _ _ _ _ _


set_option maxHeartbeats 1000000 in
theorem generate_function_excluded (cfg : Config) (f : FunctionData)
    (hf : f.is_excluded cfg = true) :
    ∀ l ∈ generate_function cfg f, ∃ u, l = "// " ++ u := by
  intro l hl
  simp only [generate_function, hf, if_true] at hl
  split at hl <;> (simp only [List.mem_singleton] at hl; subst hl) <;>
    (apply comment_of_data;
      simp only [data_append, List.append_assoc];
      (try apply prefix_extend); decide)


set_option maxHeartbeats 1000000 in
theorem generate_field_excluded (cfg : Config) (pn : String) (fd : FieldData)
    (hfd : fd.is_excluded cfg = true) :
    ∀ l ∈ generate_field cfg pn fd, ∃ u, l = "// " ++ u := by
  intro l hl
  cases hbf : fd.is_bitfield <;> cases hal : fd.type.is_array_like <;>
    cases hcq : fd.type.is_const_qualified <;>
    simp only [generate_field, hfd, hbf, hal, hcq, if_true, reduceIte,
      String.reduceBEq, Bool.false_eq_true, List.mem_singleton,
      List.mem_cons, List.not_mem_nil, or_false] at hl <;>
    subst hl <;>
    (apply comment_of_data;
      simp only [data_append, List.append_assoc];
      (try apply prefix_extend); decide)

set_option maxHeartbeats 1000000 in
theorem generate_ctor_excluded (cfg : Config) (pn : String) (c : CtorData)
    (hc : c.is_excluded cfg = true) :
    ∀ l ∈ generate_ctor cfg pn c, ∃ u, l = "// " ++ u := by
  intro l hl
  simp only [generate_ctor, List.mem_map] at hl
  obtain ⟨i, _, rfl⟩ := hl
  simp only [ctor_overload_src, hc, Bool.true_or, if_true]
  exact ⟨_, rfl⟩

theorem generate_enum_excluded (cfg : Config) (pn : String) (e : EnumData)
    (he : e.is_excluded cfg = true) :
    ∃ mid, generate_enum cfg pn e = "/*\n" :: mid ++ ["*/\n"] := by
  simp only [generate_enum, he, if_true]
  exact ⟨_, rfl⟩

set_option maxHeartbeats 1000000 in
/-- C8 (amended): every excluded enum, free function, method, field,
constructor, and every excluded class not bound through a handle macro
(and having children) still generates its text, wrapped in a disabling
comment — a block comment for enums and classes, a line-comment prefix
for the others.  (A macro-bound class is the exception the
counterexample exhibits; a class with no children generates nothing at
all, excluded or not.) -/
theorem exclusion_transparency_amended (cfg : Config) (pn : String)
    (e : EnumData) (f : FunctionData) (m : MethodData) (fd : FieldData)
    (c : CtorData) (cb : ClassBinder)
    (he : e.is_excluded cfg = true) (hf : f.is_excluded cfg = true)
    (hm : m.is_excluded cfg = true) (hfd : fd.is_excluded cfg = true)
    (hc : c.is_excluded cfg = true)
    (hcb : cb.core.is_excluded cfg = true)
    (hmac : cb.core.macro_info = none)
    (hch : cb.core.has_any_child = true) :
    (∃ mid, generate_enum cfg pn e = "/*\n" :: mid ++ ["*/\n"]) ∧
    (∀ l ∈ generate_function cfg f, ∃ u, l = "// " ++ u) ∧
    (∀ l ∈ generate_method cfg pn m, ∃ u, l = "// " ++ u) ∧
    (∀ l ∈ generate_field cfg pn fd, ∃ u, l = "// " ++ u) ∧
    (∀ l ∈ generate_ctor cfg pn c, ∃ u, l = "// " ++ u) ∧
    (∃ mid, generate_class cfg cb = "/*\n" :: mid ++ ["*/\n"]) := by
  refine ⟨generate_enum_excluded cfg pn e he,
    generate_function_excluded cfg f hf,
    generate_method_excluded cfg pn m hm,
    generate_field_excluded cfg pn fd hfd,
    generate_ctor_excluded cfg pn c hc, ?_⟩
  obtain ⟨core, ns⟩ := cb
  rw [generate_class_mk]
  simp only [ClassBinder.core] at hcb hmac hch
  exact generate_class_aux_excluded cfg core _ hmac hch hcb

/-- Witness for the amended C8 statement at concrete excluded binders of
every kind. -/
theorem exclusion_transparency_amended_witness :
    (exEnum.is_excluded exExclCfg = true ∧
     exDefFn.is_excluded exExclCfg = true ∧
     exMethod.is_excluded exExclCfg = true ∧
     exField.is_excluded exExclCfg = true ∧
     exCtor.is_excluded exExclCfg = true ∧
     (ClassBinder.mk exPrivDtorCore []).core.is_excluded exExclCfg = true ∧
     (ClassBinder.mk exPrivDtorCore []).core.macro_info = none ∧
     (ClassBinder.mk exPrivDtorCore []).core.has_any_child = true) ∧
    ((∃ mid, generate_enum exExclCfg "mod" exEnum = "/*\n" :: mid ++ ["*/\n"]) ∧
     (∀ l ∈ generate_function exExclCfg exDefFn, ∃ u, l = "// " ++ u) ∧
     (∀ l ∈ generate_method exExclCfg "mod" exMethod, ∃ u, l = "// " ++ u) ∧
     (∀ l ∈ generate_field exExclCfg "mod" exField, ∃ u, l = "// " ++ u) ∧
     (∀ l ∈ generate_ctor exExclCfg "mod" exCtor, ∃ u, l = "// " ++ u) ∧
     (∃ mid, generate_class exExclCfg (ClassBinder.mk exPrivDtorCore []) =
        "/*\n" :: mid ++ ["*/\n"])) :=
  ⟨⟨by decide, by decide, by decide, by decide, by decide, by decide, by decide,
    by decide⟩,
   exclusion_transparency_amended exExclCfg "mod" exEnum exDefFn exMethod exField
     exCtor (ClassBinder.mk exPrivDtorCore []) (by decide) (by decide) (by decide)
     (by decide) (by decide) (by decide) (by decide) (by decide)⟩

/-- C8 counterexample: an excluded class bound through a handle macro is
emitted as the bare macro invocation with no disabling comment at all
(the macro short-circuit precedes the exclusion wrap). -/
theorem excluded_macro_class_counterexample :
    exMacroCore.is_excluded exMacroCfg = true ∧
    generate_class exMacroCfg (ClassBinder.mk exMacroCore []) =
      ["bind_Define_HArray1<T1, T2>(mod, \"T1\");", "\n"] :=
  ⟨by decide, by rw [generate_class_mk]; decide⟩


/-- C4 (amended): the base list of a generated class registration
consists exactly of the public, non-excluded bases whose
handle-versus-unique_ptr holder classification agrees with the class's
own; the `py::nodelete` (disabled-destruction) refinement of the holder
is not part of the comparison, and a dropped base never fails the run.
-/
theorem holder_mismatch_amended (cfg : Config) (c : ClassCore) :
    class_base_names cfg c =
      (c.bases.filter (base_kept cfg c)).map (fun b => b.type_spelling) := by
  simp only [class_base_names]
  rw [foldl_filter_map _ (base_kept cfg c) (fun b => b.type_spelling) ?hg]
  · simp
  case hg =>
    intro acc b
    simp only [base_kept, base_holder_model, bne]
    cases hp : b.is_public <;>
      cases hq : ((class_excluded_bases cfg c).contains b.type_spelling ||
        cfg.excluded_classes.contains b.type_spelling) <;>
      simp [hp, hq, ite_not_swap]

/-- C4 counterexample: a class whose holder is the disabled-destruction
variant `std::unique_ptr<C, py::nodelete>` keeps its public base `B`
even though `B` resolves to the plain `std::unique_ptr` holder model —
the three-way holder-model comparison of the claim is not what the code
performs. -/
theorem holder_mismatch_nodelete_counterexample :
    class_holder {} exC4Core =
      (", std::unique_ptr<C, py::nodelete>", "std::unique_ptr") ∧
    base_holder_model { type_spelling := "B" } = "std::unique_ptr" ∧
    exC4Core.bases = [{ type_spelling := "B" }] ∧
    class_base_names {} exC4Core = ["B"] := by decide

/-- C7 (amended): a non-transient class with a private destructor gets
the `std::unique_ptr<..., py::nodelete>` holder, but when it is
otherwise eligible the synthesized default constructor binding is still
generated — the destructor is not consulted by the default-constructor
logic. -/
theorem nodelete_holder_and_default_ctor (cfg : Config) (c : ClassCore)
    (h1 : needs_nodelete c = true) (h2 : c.is_transient = false) :
    class_holder cfg c =
      (", std::unique_ptr<" ++ c.qualified_name ++ ", py::nodelete>",
       "std::unique_ptr") ∧
    (c.is_abstract = false →
     needs_default_ctor c = true →
     cfg.excluded_functions.contains c.qualified_name = false →
     c.has_unimplemented_methods = false →
     class_ctor_section cfg c =
       [class_cls_name cfg c ++ ".def(py::init<>());\n"]) := by
  constructor
  · simp [class_holder, h1, h2]
  · intro habs hd hexc hunimpl
    have hd0 := hd
    have hctors : c.ctors = [] := by
      rw [needs_default_ctor, if_neg] at hd
      · simp only [List.all_cons, Bool.and_eq_true, List.isEmpty_iff] at hd
        exact hd.1
      · simp [habs]
    have hexc2 : c.qualified_name ∉ cfg.excluded_functions := by
      simpa using hexc
    simp [class_ctor_section, habs, hctors, hd0, hexc2, hunimpl]

/-- Witness for the amended C7 statement at a concrete class with only
a private destructor. -/
theorem nodelete_holder_and_default_ctor_witness :
    (needs_nodelete exPrivDtorCore = true ∧
     exPrivDtorCore.is_transient = false) ∧
    (class_holder {} exPrivDtorCore =
      (", std::unique_ptr<" ++ exPrivDtorCore.qualified_name ++
        ", py::nodelete>", "std::unique_ptr") ∧
     (exPrivDtorCore.is_abstract = false →
      needs_default_ctor exPrivDtorCore = true →
      ({} : Config).excluded_functions.contains
        exPrivDtorCore.qualified_name = false →
      exPrivDtorCore.has_unimplemented_methods = false →
      class_ctor_section {} exPrivDtorCore =
        [class_cls_name {} exPrivDtorCore ++ ".def(py::init<>());\n"])) :=
  ⟨⟨by decide, by decide⟩,
   nodelete_holder_and_default_ctor {} exPrivDtorCore (by decide) (by decide)⟩

/-- C7 counterexample: the private-destructor class `P` receives the
nodelete holder in its registration line, yet the default constructor
binding `cls_P.def(py::init<>());` is generated all the same. -/
theorem nodelete_default_ctor_counterexample :
    needs_nodelete exPrivDtorCore = true ∧
    needs_default_ctor exPrivDtorCore = true ∧
    generate_class {} (ClassBinder.mk exPrivDtorCore []) =
      ["py::class_<P, std::unique_ptr<P, py::nodelete>> cls_P(mod, \"P\", \"\");\n",
       "\n// Constructors\n", "cls_P.def(py::init<>());\n"] :=
  ⟨by decide, by decide, by rw [generate_class_mk]; decide⟩

/-- C5 (amended): after a full traversal, every recorded typedef alias
equals the canonical-map content at its acceptance point — the most
recently accepted class with the same canonical spelling, else the
first accepted declaration with it (not necessarily the first-seen
typedef); and a typedef whose alias lives in the same module generates
exactly the attribute-copy statement referencing the alias's python
name, never a class body. -/
theorem typedef_alias_target (tc : TravConfig) (roots : List TravNode)
    (cfg : Config) (b : TypedefData) (a : AliasInfo)
    (ha : b.alias_target = some a) (hm : b.module_name = a.module_name) :
    (∀ n (h : n < (traverse_tu tc roots).trace.length),
      ((traverse_tu tc roots).trace.get ⟨n, h⟩).data.kind =
          TKind.typedefDecl →
      ((traverse_tu tc roots).trace.get ⟨n, h⟩).alias_target =
        aliasTarget ((traverse_tu tc roots).trace.take n)
          ((traverse_tu tc roots).trace.get ⟨n, h⟩).data.canonical_spelling) ∧
    generate_typedef2 cfg b =
      (["if (py::hasattr(mod, \"" ++ a.python_name ++ "\")) \x7b\n",
        "\tmod.attr(\"" ++ b.python_name ++ "\") = mod.attr(\"" ++
          a.python_name ++ "\");\n",
        "\x7d\n"], none, []) := by
  constructor
  · exact (traverse_tu_inv tc roots).2
  · have hmb : (b.module_name == a.module_name) = true := by simp [hm]
    simp [generate_typedef2, ha, hmb]

/-- Witness for the amended C5 statement on the concrete traversal
scenario. -/
theorem typedef_alias_target_witness :
    (exTypedefT2.alias_target =
      some exAliasK ∧
     exTypedefT2.module_name =
       exAliasK.module_name) ∧
    ((∀ n (h : n <
        (traverse_tu exTravCfg [exNodeK, exNodeT1, exNodeT2]).trace.length),
      ((traverse_tu exTravCfg
          [exNodeK, exNodeT1, exNodeT2]).trace.get ⟨n, h⟩).data.kind =
          TKind.typedefDecl →
      ((traverse_tu exTravCfg
          [exNodeK, exNodeT1, exNodeT2]).trace.get ⟨n, h⟩).alias_target =
        aliasTarget
          ((traverse_tu exTravCfg [exNodeK, exNodeT1, exNodeT2]).trace.take n)
          ((traverse_tu exTravCfg
            [exNodeK, exNodeT1, exNodeT2]).trace.get
              ⟨n, h⟩).data.canonical_spelling) ∧
    generate_typedef2 {} exTypedefT2 =
      (["if (py::hasattr(mod, \"" ++ exAliasK.python_name ++ "\")) \x7b\n",
        "\tmod.attr(\"" ++ exTypedefT2.python_name ++ "\") = mod.attr(\"" ++
          exAliasK.python_name ++ "\");\n",
        "\x7d\n"], none, [])) :=
  ⟨⟨by decide, by decide⟩,
   typedef_alias_target exTravCfg [exNodeK, exNodeT1, exNodeT2] {} exTypedefT2
     exAliasK (by decide) (by decide)⟩

/-- C5 counterexample: `T1` is the first-seen typedef with canonical
spelling `S`, yet the second typedef `T2` is recorded as an alias of
the class `K` (which claimed the canonical-map slot first), not of
`T1`. -/
theorem typedef_alias_counterexample :
    ((traverse_tu exTravCfg [exNodeK, exNodeT1, exNodeT2]).trace.map
      (fun e => (e.data.spelling, e.data.kind,
                 e.alias_target.map (fun a => a.spelling)))) =
      [("K", TKind.classDecl, none), ("T1", TKind.typedefDecl, some "K"),
       ("T2", TKind.typedefDecl, some "K")] := by
  rw [traverse_tu]
  simp only [List.foldl_cons, List.foldl_nil]
  unfold exNodeK exNodeT1 exNodeT2
  rw [traverse_binder, traverse_binder, traverse_binder]
  decide

/-- C2 (amended): over a registry whose modules' imports are all
available and whose names are distinct, `is_circular(A, B)` holds iff
B's name is in A's transitive import closure and A's name is in B's;
and it is false whenever either module has an empty import list.  (On a
registry with an unavailable import the DFS aborts early and can
under-report, as the counterexample shows.) -/
theorem is_circular_iff_closed (available : List String) (mods : List PyModule)
    (hclosed : RegistryClosed available mods)
    (hnd : (mods.map (fun m => m.name)).Nodup)
    (A B : PyModule) (hA : A ∈ mods) (hB : B ∈ mods)
    (havA : available.contains A.name = true)
    (havB : available.contains B.name = true) :
    (PyModule.is_circular available mods A B = true ↔
      (TransImport available mods A.name B.name ∧
       TransImport available mods B.name A.name)) ∧
    ((A.imports = [] ∨ B.imports = []) →
      PyModule.is_circular available mods A B = false) := by
  constructor
  · unfold PyModule.is_circular
    rw [Bool.and_eq_true,
      is_dependent_iff available mods hclosed hnd A B hA,
      is_dependent_iff available mods hclosed hnd B A hB,
      transImport_iff available mods hnd A hA havA B.name,
      transImport_iff available mods hnd B hB havB A.name]
  · intro hemp
    unfold PyModule.is_circular
    rcases hemp with h | h
    · have hd : PyModule.is_dependent available mods A B = false := by
        cases hd : PyModule.is_dependent available mods A B
        · rfl
        · obtain ⟨t, ht, _⟩ :=
            (is_dependent_iff available mods hclosed hnd A B hA).mp hd
          rw [h] at ht
          cases ht
      rw [hd, Bool.false_and]
    · have hd : PyModule.is_dependent available mods B A = false := by
        cases hd : PyModule.is_dependent available mods B A
        · rfl
        · obtain ⟨t, ht, _⟩ :=
            (is_dependent_iff available mods hclosed hnd B A hB).mp hd
          rw [h] at ht
          cases ht
      rw [hd, Bool.and_false]

/-- Witness for the amended C2 statement on a concrete two-module
cycle. -/
theorem is_circular_iff_closed_witness :
    (RegistryClosed ["A", "B"] [wModA, wModB] ∧
     (([wModA, wModB].map (fun m => m.name)).Nodup) ∧
     wModA ∈ [wModA, wModB] ∧ wModB ∈ [wModA, wModB] ∧
     ["A", "B"].contains wModA.name = true ∧
     ["A", "B"].contains wModB.name = true) ∧
    ((PyModule.is_circular ["A", "B"] [wModA, wModB] wModA wModB = true ↔
       (TransImport ["A", "B"] [wModA, wModB] wModA.name wModB.name ∧
        TransImport ["A", "B"] [wModA, wModB] wModB.name wModA.name)) ∧
     ((wModA.imports = [] ∨ wModB.imports = []) →
       PyModule.is_circular ["A", "B"] [wModA, wModB] wModA wModB = false)) :=
  ⟨⟨by unfold RegistryClosed; decide, by decide, by decide, by decide,
    by decide, by decide⟩,
   is_circular_iff_closed ["A", "B"] [wModA, wModB]
     (by unfold RegistryClosed; decide) (by decide)
     wModA wModB (by decide) (by decide) (by decide) (by decide)⟩

/-- C2 counterexample: `A` imports the unavailable `X` before `B`, so
its DFS aborts and `is_circular` is false although `A` and `B` are in
each other's transitive import closures. -/
theorem is_circular_counterexample :
    PyModule.is_circular ["A", "B"] [cexModA, cexModB] cexModA cexModB =
      false ∧
    TransImport ["A", "B"] [cexModA, cexModB] cexModA.name cexModB.name ∧
    TransImport ["A", "B"] [cexModA, cexModB] cexModB.name cexModA.name := by
  refine ⟨by decide, ?_, ?_⟩
  · exact Relation.TransGen.single ⟨cexModA, by decide, by decide⟩
  · exact Relation.TransGen.single ⟨cexModB, by decide, by decide⟩
